import Mathlib

/-!
# Debug-draw transform pipeline (`src/src/debug-drawer.js`)

A shallow embedding of the `DebugDrawer` class and of the `gl-matrix`
routines it calls, in exact arithmetic over a linearly ordered field.

* JavaScript numbers and the entries of the typed arrays are idealised as
  field elements: rounding, NaN and overflow are not modelled there.
* A second copy of the constructor and of `drawLine`, over the numbers `Ext`
  (finite values, the two infinities and NaN, with overflow past
  `Number.MAX_VALUE`), follows the code where a value stops being finite.
* `Math.sqrt`, `Math.sin`, `Math.cos` and `Math.PI` are supplied through a
  `MathLib` record; what the proofs need of them is collected in
  `MathLib.Exact`, which the real functions satisfy.
* The `gl-matrix` routines (`vec3`, `quat`, `mat4`) are an external library;
  they are transcribed from its published source (version 3.4), statement by
  statement.
* The WebGL context is modelled by the log of the calls made on it.
-/

namespace DebugDraw

/-! ## Data model -/

/-- The `Math` functions used by `gl-matrix`. -/
structure MathLib (α : Type) where
  sqrt : α → α
  sin : α → α
  cos : α → α
  PI : α

/-- A `vec3` (three-element typed array): indices 0, 1, 2. -/
structure Vec3 (α : Type) where
  x : α
  y : α
  z : α
deriving DecidableEq

/-- A `quat` (four-element typed array): indices 0, 1, 2, 3. -/
structure Quat (α : Type) where
  x : α
  y : α
  z : α
  w : α
deriving DecidableEq

/-- A `mat4`: sixteen entries in column-major order, `eK` being index `K`. -/
structure Mat4 (α : Type) where
  e0 : α
  e1 : α
  e2 : α
  e3 : α
  e4 : α
  e5 : α
  e6 : α
  e7 : α
  e8 : α
  e9 : α
  e10 : α
  e11 : α
  e12 : α
  e13 : α
  e14 : α
  e15 : α
deriving DecidableEq

/-- A simulation-space point (`b2Vec2`-like object with `x` and `y`). -/
structure Point (α : Type) where
  x : α
  y : α
deriving DecidableEq

/-- The rotation part of a transform: sine and cosine of the angle. -/
structure Rot (α : Type) where
  s : α
  c : α
deriving DecidableEq

/-- A rigid transform as handed over by the physics engine. -/
structure Transform (α : Type) where
  p : Point α
  q : Rot α
deriving DecidableEq

/-- A colour object with fields `r`, `g`, `b`. -/
structure Color (α : Type) where
  r : α
  g : α
  b : α
deriving DecidableEq

/-- The calls made on the WebGL context, in order.  The uniform locations are
fixed at construction time and are left out. -/
inductive GLCall (α : Type) where
  | uniform3f (r g b : α)
  | uniformMatrix4fv (m : Mat4 α)
  | drawArrays (first count : Nat)
deriving DecidableEq

/-- The fields of a `DebugDrawer` object, together with the log of calls it
has made on the WebGL context.  The handles `program`, `uMvpMatrixLocation`
and `uColorLocation` are left out: they are set once and only passed back to
the context. -/
structure DebugDrawer (α : Type) where
  pixelsPerMeter : α
  mvpMatrix : Mat4 α
  modelMatrix : Mat4 α
  projViewMatrix : Option (Mat4 α)
  lineWidth : α
  centerX : α
  centerY : α
  tempVec : Vec3 α
  fromX : α
  fromY : α
  toX : α
  toY : α
  length : α
  position : Vec3 α
  rotation : Quat α
  scale : Vec3 α
  color : Vec3 α
  unitX : Vec3 α
  xf : Vec3 α
  radianOffset : α
  quatMat : Mat4 α
  q : Quat α
  glLog : List (GLCall α)

section GlMatrix

variable {α : Type} [LinearOrderedField α]

/-! ## The `gl-matrix` routines used by the drawer -/

namespace vec3

/-- Routine `vec3.create()`. -/
def create : Vec3 α := ⟨0, 0, 0⟩

/-- Routine `vec3.fromValues(x, y, z)`. -/
def fromValues (x y z : α) : Vec3 α := ⟨x, y, z⟩

/-- Routine `vec3.length(a)`: the square root of the sum of squares (written
with `Math.hypot` in older releases of the library). -/
def length (M : MathLib α) (a : Vec3 α) : α :=
  M.sqrt (a.x * a.x + a.y * a.y + a.z * a.z)

/-- Routine `vec3.normalize(out, a)`: the zero vector is left as it is. -/
def normalize (M : MathLib α) (a : Vec3 α) : Vec3 α :=
  let len := a.x * a.x + a.y * a.y + a.z * a.z
  let len := if len > 0 then 1 / M.sqrt len else len
  ⟨a.x * len, a.y * len, a.z * len⟩

/-- Routine `vec3.dot(a, b)`. -/
def dot (a b : Vec3 α) : α := a.x * b.x + a.y * b.y + a.z * b.z

/-- Routine `vec3.cross(out, a, b)`. -/
def cross (a b : Vec3 α) : Vec3 α :=
  ⟨a.y * b.z - a.z * b.y, a.z * b.x - a.x * b.z, a.x * b.y - a.y * b.x⟩

end vec3

namespace quat

/-- Routine `quat.create()`. -/
def create : Quat α := ⟨0, 0, 0, 1⟩

/-- Routine `quat.identity(out)`. -/
def identity : Quat α := ⟨0, 0, 0, 1⟩

/-- Routine `quat.setAxisAngle(out, axis, rad)`. -/
def setAxisAngle (M : MathLib α) (axis : Vec3 α) (rad : α) : Quat α :=
  let rad := rad * (1 / 2)
  let s := M.sin rad
  ⟨s * axis.x, s * axis.y, s * axis.z, M.cos rad⟩

/-- Routine `quat.normalize(out, a)` (that is `vec4.normalize`). -/
def normalize (M : MathLib α) (a : Quat α) : Quat α :=
  let len := a.x * a.x + a.y * a.y + a.z * a.z + a.w * a.w
  let len := if len > 0 then 1 / M.sqrt len else len
  ⟨a.x * len, a.y * len, a.z * len, a.w * len⟩

/-- Routine `quat.rotateZ(out, a, rad)`. -/
def rotateZ (M : MathLib α) (a : Quat α) (rad : α) : Quat α :=
  let rad := rad * (1 / 2)
  let bz := M.sin rad
  let bw := M.cos rad
  ⟨a.x * bw + a.y * bz, a.y * bw - a.x * bz, a.z * bw + a.w * bz, a.w * bw - a.z * bz⟩

/-- Routine `quat.rotationTo(out, a, b)`: the three branches on the dot product, with
the library thresholds `0.999999` and `0.000001`. -/
def rotationTo (M : MathLib α) (a b : Vec3 α) : Quat α :=
  let dot := vec3.dot a b
  if dot < -(999999 / 1000000) then
    let tmpvec3 := vec3.cross (vec3.fromValues 1 0 0) a
    let tmpvec3 :=
      if vec3.length M tmpvec3 < 1 / 1000000 then vec3.cross (vec3.fromValues 0 1 0) a
      else tmpvec3
    let tmpvec3 := vec3.normalize M tmpvec3
    setAxisAngle M tmpvec3 M.PI
  else if dot > 999999 / 1000000 then
    ⟨0, 0, 0, 1⟩
  else
    let tmpvec3 := vec3.cross a b
    normalize M ⟨tmpvec3.x, tmpvec3.y, tmpvec3.z, 1 + dot⟩

end quat

namespace mat4

/-- Routine `mat4.create()` and `mat4.identity(out)`. -/
def identity : Mat4 α := ⟨1, 0, 0, 0, 0, 1, 0, 0, 0, 0, 1, 0, 0, 0, 0, 1⟩

/-- Routine `mat4.create()`. -/
def create : Mat4 α := identity

/-- Routine `mat4.translate(out, a, v)` with `out` and `a` the same array, as the
drawer calls it: only indices 12 to 15 are written. -/
def translate (a : Mat4 α) (v : Vec3 α) : Mat4 α :=
  { a with
    e12 := a.e0 * v.x + a.e4 * v.y + a.e8 * v.z + a.e12
    e13 := a.e1 * v.x + a.e5 * v.y + a.e9 * v.z + a.e13
    e14 := a.e2 * v.x + a.e6 * v.y + a.e10 * v.z + a.e14
    e15 := a.e3 * v.x + a.e7 * v.y + a.e11 * v.z + a.e15 }

/-- Routine `mat4.scale(out, a, v)`. -/
def scale (a : Mat4 α) (v : Vec3 α) : Mat4 α :=
  ⟨a.e0 * v.x, a.e1 * v.x, a.e2 * v.x, a.e3 * v.x,
   a.e4 * v.y, a.e5 * v.y, a.e6 * v.y, a.e7 * v.y,
   a.e8 * v.z, a.e9 * v.z, a.e10 * v.z, a.e11 * v.z,
   a.e12, a.e13, a.e14, a.e15⟩

/-- Routine `mat4.fromQuat(out, q)`. -/
def fromQuat (q : Quat α) : Mat4 α :=
  let x := q.x
  let y := q.y
  let z := q.z
  let w := q.w
  let x2 := x + x
  let y2 := y + y
  let z2 := z + z
  let xx := x * x2
  let yx := y * x2
  let yy := y * y2
  let zx := z * x2
  let zy := z * y2
  let zz := z * z2
  let wx := w * x2
  let wy := w * y2
  let wz := w * z2
  ⟨1 - yy - zz, yx + wz, zx - wy, 0,
   yx - wz, 1 - xx - zz, zy + wx, 0,
   zx + wy, zy - wx, 1 - xx - yy, 0,
   0, 0, 0, 1⟩

/-- Routine `mat4.multiply(out, a, b)` (alias `mat4.mul`). -/
def mul (a b : Mat4 α) : Mat4 α :=
  ⟨b.e0 * a.e0 + b.e1 * a.e4 + b.e2 * a.e8 + b.e3 * a.e12,
   b.e0 * a.e1 + b.e1 * a.e5 + b.e2 * a.e9 + b.e3 * a.e13,
   b.e0 * a.e2 + b.e1 * a.e6 + b.e2 * a.e10 + b.e3 * a.e14,
   b.e0 * a.e3 + b.e1 * a.e7 + b.e2 * a.e11 + b.e3 * a.e15,
   b.e4 * a.e0 + b.e5 * a.e4 + b.e6 * a.e8 + b.e7 * a.e12,
   b.e4 * a.e1 + b.e5 * a.e5 + b.e6 * a.e9 + b.e7 * a.e13,
   b.e4 * a.e2 + b.e5 * a.e6 + b.e6 * a.e10 + b.e7 * a.e14,
   b.e4 * a.e3 + b.e5 * a.e7 + b.e6 * a.e11 + b.e7 * a.e15,
   b.e8 * a.e0 + b.e9 * a.e4 + b.e10 * a.e8 + b.e11 * a.e12,
   b.e8 * a.e1 + b.e9 * a.e5 + b.e10 * a.e9 + b.e11 * a.e13,
   b.e8 * a.e2 + b.e9 * a.e6 + b.e10 * a.e10 + b.e11 * a.e14,
   b.e8 * a.e3 + b.e9 * a.e7 + b.e10 * a.e11 + b.e11 * a.e15,
   b.e12 * a.e0 + b.e13 * a.e4 + b.e14 * a.e8 + b.e15 * a.e12,
   b.e12 * a.e1 + b.e13 * a.e5 + b.e14 * a.e9 + b.e15 * a.e13,
   b.e12 * a.e2 + b.e13 * a.e6 + b.e14 * a.e10 + b.e15 * a.e14,
   b.e12 * a.e3 + b.e13 * a.e7 + b.e14 * a.e11 + b.e15 * a.e15⟩

end mat4

end GlMatrix

section Drawer

variable {α : Type} [LinearOrderedField α]

/-! ## The `DebugDrawer` class -/

namespace DebugDrawer

/-- The constructor: `new DebugDrawer(program, pixelsPerMeter)`.  The
projection-view matrix starts as `null`. -/
def new (pixelsPerMeter : α) : DebugDrawer α :=
  { pixelsPerMeter := pixelsPerMeter
    mvpMatrix := mat4.create
    modelMatrix := mat4.create
    projViewMatrix := none
    lineWidth := 4
    centerX := 0
    centerY := 0
    tempVec := vec3.create
    fromX := 0
    fromY := 0
    toX := 0
    toY := 0
    length := 0
    position := vec3.create
    rotation := quat.create
    scale := vec3.create
    color := vec3.create
    unitX := vec3.fromValues 1 0 0
    xf := vec3.create
    radianOffset := 0
    quatMat := mat4.create
    q := quat.create
    glLog := [] }

/-- The assignment `debugDrawer.projViewMatrix = projViewMatrix` made by the
caller in `index.js`. -/
def setProjViewMatrix (d : DebugDrawer α) (m : Mat4 α) : DebugDrawer α :=
  { d with projViewMatrix := some m }

/-- Lines 45 to 48 of `drawLine`: the endpoints in pixels. -/
def drawLineEndpoints (d : DebugDrawer α) (pointA pointB : Point α) : DebugDrawer α :=
  let d := { d with fromX := pointA.x * d.pixelsPerMeter }
  let d := { d with fromY := pointA.y * d.pixelsPerMeter }
  let d := { d with toX := pointB.x * d.pixelsPerMeter }
  let d := { d with toY := pointB.y * d.pixelsPerMeter }
  d

/-- Lines 49 to 53 of `drawLine`: the centre along X. -/
def drawLineCenterX (d : DebugDrawer α) : DebugDrawer α :=
  if d.fromX > d.toX then
    { d with centerX := d.toX + |d.fromX - d.toX| / 2 }
  else
    { d with centerX := d.fromX + |d.toX - d.fromX| / 2 }

/-- Lines 54 to 58 of `drawLine`: the centre along Y. -/
def drawLineCenterY (d : DebugDrawer α) : DebugDrawer α :=
  if d.fromY > d.toY then
    { d with centerY := d.toY + |d.fromY - d.toY| / 2 }
  else
    { d with centerY := d.fromY + |d.toY - d.fromY| / 2 }

/-- Lines 59 to 62 of `drawLine`: direction, length and normalisation. -/
def drawLineDirection (M : MathLib α) (d : DebugDrawer α) : DebugDrawer α :=
  let d := { d with tempVec := { d.tempVec with x := d.toX - d.fromX } }
  let d := { d with tempVec := { d.tempVec with y := d.toY - d.fromY } }
  let d := { d with length := vec3.length M d.tempVec }
  let d := { d with tempVec := vec3.normalize M d.tempVec }
  d

/-- Lines 64 to 70 of `drawLine`: position, rotation and scale of the segment. -/
def drawLineSegmentFrame (M : MathLib α) (d : DebugDrawer α) : DebugDrawer α :=
  let d := { d with position := { d.position with x := d.centerX } }
  let d := { d with position := { d.position with y := d.centerY } }
  let d := { d with position := { d.position with z := 0 } }
  let d := { d with rotation := quat.rotationTo M d.unitX d.tempVec }
  let d := { d with scale := { d.scale with x := d.length } }
  let d := { d with scale := { d.scale with y := d.lineWidth } }
  let d := { d with scale := { d.scale with z := 1 } }
  d

/-- Lines 72 to 77 of `drawLine`: the parent frame. -/
def drawLineParent (M : MathLib α) (d : DebugDrawer α) : DebugDrawer α :=
  let d := { d with modelMatrix := mat4.identity }
  let d := { d with modelMatrix := mat4.translate d.modelMatrix d.xf }
  let d := { d with q := quat.identity }
  let d := { d with q := quat.rotateZ M d.q d.radianOffset }
  let d := { d with quatMat := mat4.fromQuat d.q }
  let d := { d with modelMatrix := mat4.mul d.modelMatrix d.quatMat }
  d

/-- Lines 78 to 81 of `drawLine`: the segment frame applied to the parent. -/
def drawLineCompose (d : DebugDrawer α) : DebugDrawer α :=
  let d := { d with modelMatrix := mat4.translate d.modelMatrix d.position }
  let d := { d with quatMat := mat4.fromQuat d.rotation }
  let d := { d with modelMatrix := mat4.mul d.modelMatrix d.quatMat }
  let d := { d with modelMatrix := mat4.scale d.modelMatrix d.scale }
  d

/-- Lines 45 to 81 of `drawLine`: everything up to and including
`mat4.scale`, none of which can throw. -/
def drawLineModel (M : MathLib α) (d : DebugDrawer α) (pointA pointB : Point α) :
    DebugDrawer α :=
  let d := drawLineEndpoints d pointA pointB
  let d := drawLineCenterX d
  let d := drawLineCenterY d
  let d := drawLineDirection M d
  let d := drawLineSegmentFrame M d
  let d := drawLineParent M d
  let d := drawLineCompose d
  d

/-- Method `drawLine(pointA, pointB)`.  `Except.error` carries the object as it is
when `mat4.mul` throws on a `null` projection-view matrix. -/
def drawLine (M : MathLib α) (d : DebugDrawer α) (pointA pointB : Point α) :
    Except (DebugDrawer α) (DebugDrawer α) :=
  let d := drawLineModel M d pointA pointB
  match d.projViewMatrix with
  | none => Except.error d
  | some pv =>
    let d := { d with mvpMatrix := mat4.mul pv d.modelMatrix }
    let d := { d with glLog := d.glLog ++ [GLCall.uniformMatrix4fv d.mvpMatrix] }
    let d := { d with glLog := d.glLog ++ [GLCall.drawArrays 0 4] }
    Except.ok d

/-- The call `this.drawLine(vertices[i], vertices[j])`: an index past the
end of the array yields `undefined`, on which the property read at line 45
(or line 47, after `fromX` and `fromY` are written) throws. -/
def drawLineAt (M : MathLib α) (d : DebugDrawer α) (vertices : List (Point α))
    (i j : Nat) : Except (DebugDrawer α) (DebugDrawer α) :=
  match vertices[i]?, vertices[j]? with
  | none, _ => Except.error d
  | some a, none =>
    Except.error { d with fromX := a.x * d.pixelsPerMeter, fromY := a.y * d.pixelsPerMeter }
  | some a, some b => drawLine M d a b

/-- Method `DrawSolidPolygon(vertices, vertexCount, color)`. -/
def DrawSolidPolygon (M : MathLib α) (d : DebugDrawer α) (vertices : List (Point α))
    (vertexCount : Nat) (color : Color α) : Except (DebugDrawer α) (DebugDrawer α) := do
  let _ := vertexCount
  let d := { d with glLog := d.glLog ++ [GLCall.uniform3f color.r color.g color.b] }
  let d ← drawLineAt M d vertices 0 1
  let d ← drawLineAt M d vertices 1 2
  let d ← drawLineAt M d vertices 2 3
  let d ← drawLineAt M d vertices 3 0
  pure d

/-- Method `PushTransform(xf)`. -/
def PushTransform (d : DebugDrawer α) (xf : Transform α) : DebugDrawer α :=
  let d := { d with xf := { d.xf with x := xf.p.x * d.pixelsPerMeter } }
  let d := { d with xf := { d.xf with y := xf.p.y * d.pixelsPerMeter } }
  let d := { d with radianOffset := xf.q.s }
  d

/-- Method `PopTransform(xf)`: the body is empty. -/
def PopTransform (d : DebugDrawer α) (xf : Transform α) : DebugDrawer α :=
  let _ := xf
  d

end DebugDrawer

/-! ## Numbers with infinities and NaN

A second number model, used to follow the code where a product overflows:
a finite value, `+Infinity`, `-Infinity` or `NaN`.  Finite results are exact
(no rounding); a finite result beyond `Number.MAX_VALUE` becomes an infinity;
the special values combine as in IEEE 754.  Signed zeros, underflow and the
narrowing of stores into `Float32Array` are not modelled. -/

/-- A JavaScript number: finite, `Infinity`, `-Infinity` or `NaN`. -/
inductive Ext (α : Type) where
  | fin (x : α)
  | posInf
  | negInf
  | nan
deriving DecidableEq

namespace Ext

variable {α : Type} [LinearOrderedField α]

/-- The largest finite number, `Number.MAX_VALUE = 2^1024 - 2^971`. -/
def maxValue : α := 2 ^ 1024 - 2 ^ 971

/-- The result of an operation whose exact value is `x`: infinite once the
magnitude of `x` exceeds `maxValue`. -/
def round (x : α) : Ext α :=
  if maxValue < x then posInf else if x < -maxValue then negInf else fin x

/-- Negation. -/
def neg : Ext α → Ext α
  | fin a => fin (-a)
  | posInf => negInf
  | negInf => posInf
  | nan => nan

/-- Addition: `Infinity + -Infinity` is `NaN`. -/
def add : Ext α → Ext α → Ext α
  | nan, _ => nan
  | _, nan => nan
  | posInf, negInf => nan
  | negInf, posInf => nan
  | posInf, _ => posInf
  | _, posInf => posInf
  | negInf, _ => negInf
  | _, negInf => negInf
  | fin a, fin b => round (a + b)

/-- Subtraction: `Infinity - Infinity` is `NaN`. -/
def sub (a b : Ext α) : Ext α := add a (neg b)

/-- The product of an infinity (positive or negative, as the flag says) and
the finite number `a`: an infinity of the product sign, `NaN` when `a` is
zero. -/
def infTimes (positive : Bool) (a : α) : Ext α :=
  if 0 < a then (if positive then posInf else negInf)
  else if a < 0 then (if positive then negInf else posInf)
  else nan

/-- Multiplication: `Infinity * 0` is `NaN`. -/
def mul : Ext α → Ext α → Ext α
  | nan, _ => nan
  | _, nan => nan
  | posInf, posInf => posInf
  | posInf, negInf => negInf
  | negInf, posInf => negInf
  | negInf, negInf => posInf
  | posInf, fin b => infTimes true b
  | negInf, fin b => infTimes false b
  | fin a, posInf => infTimes true a
  | fin a, negInf => infTimes false a
  | fin a, fin b => round (a * b)

/-- Division: `Infinity / Infinity` and `0 / 0` are `NaN`, a non-zero finite
number over zero is an infinity, a finite number over an infinity is zero. -/
def div : Ext α → Ext α → Ext α
  | nan, _ => nan
  | _, nan => nan
  | posInf, posInf => nan
  | posInf, negInf => nan
  | negInf, posInf => nan
  | negInf, negInf => nan
  | posInf, fin b => if b < 0 then negInf else posInf
  | negInf, fin b => if b < 0 then posInf else negInf
  | fin _, posInf => fin 0
  | fin _, negInf => fin 0
  | fin a, fin b => if b = 0 then infTimes true a else round (a / b)

/-- The comparison `a < b`: false as soon as one side is `NaN`. -/
def blt : Ext α → Ext α → Bool
  | nan, _ => false
  | _, nan => false
  | negInf, negInf => false
  | negInf, _ => true
  | _, negInf => false
  | posInf, _ => false
  | fin _, posInf => true
  | fin a, fin b => decide (a < b)

/-- The function `Math.abs`. -/
def abs : Ext α → Ext α
  | fin a => fin |a|
  | posInf => posInf
  | negInf => posInf
  | nan => nan

/-- The function `Math.sqrt`, from a square root on the finite values. -/
def sqrt (f : α → α) : Ext α → Ext α
  | fin a => if a < 0 then nan else round (f a)
  | posInf => posInf
  | negInf => nan
  | nan => nan

/-- The functions `Math.sin` and `Math.cos`, from their values on the finite
numbers: `NaN` at the infinities and at `NaN`. -/
def trig (f : α → α) : Ext α → Ext α
  | fin a => fin (f a)
  | _ => nan

/-- The `Math` functions on these numbers, from those on the finite values. -/
def mathLib (M : MathLib α) : MathLib (Ext α) :=
  ⟨sqrt M.sqrt, trig M.sin, trig M.cos, round M.PI⟩

instance : Neg (Ext α) := ⟨neg⟩

instance : Add (Ext α) := ⟨add⟩

instance : Sub (Ext α) := ⟨sub⟩

instance : Mul (Ext α) := ⟨mul⟩

instance : Div (Ext α) := ⟨div⟩

instance : LT (Ext α) := ⟨fun a b => blt a b = true⟩

instance (a b : Ext α) : Decidable (a < b) :=
  inferInstanceAs (Decidable (blt a b = true))

instance (n : Nat) : OfNat (Ext α) n := ⟨round (Nat.cast n)⟩

end Ext

/-! ## The constructor and `drawLine` over numbers with infinities and NaN

The same statements as above, line for line, with the arithmetic of `Ext`. -/

namespace IEEE

variable {α : Type} [LinearOrderedField α]

namespace vec3

/-- Routine `vec3.create()`. -/
def create : Vec3 (Ext α) := ⟨0, 0, 0⟩

/-- Routine `vec3.fromValues(x, y, z)`. -/
def fromValues (x y z : Ext α) : Vec3 (Ext α) := ⟨x, y, z⟩

/-- Routine `vec3.length(a)`: the square root of the sum of squares (written
with `Math.hypot` in older releases of the library). -/
def length (M : MathLib (Ext α)) (a : Vec3 (Ext α)) : Ext α :=
  M.sqrt (a.x * a.x + a.y * a.y + a.z * a.z)

/-- Routine `vec3.normalize(out, a)`: the zero vector is left as it is. -/
def normalize (M : MathLib (Ext α)) (a : Vec3 (Ext α)) : Vec3 (Ext α) :=
  let len := a.x * a.x + a.y * a.y + a.z * a.z
  let len := if len > 0 then 1 / M.sqrt len else len
  ⟨a.x * len, a.y * len, a.z * len⟩

/-- Routine `vec3.dot(a, b)`. -/
def dot (a b : Vec3 (Ext α)) : Ext α := a.x * b.x + a.y * b.y + a.z * b.z

/-- Routine `vec3.cross(out, a, b)`. -/
def cross (a b : Vec3 (Ext α)) : Vec3 (Ext α) :=
  ⟨a.y * b.z - a.z * b.y, a.z * b.x - a.x * b.z, a.x * b.y - a.y * b.x⟩

end vec3

namespace quat

/-- Routine `quat.create()`. -/
def create : Quat (Ext α) := ⟨0, 0, 0, 1⟩

/-- Routine `quat.identity(out)`. -/
def identity : Quat (Ext α) := ⟨0, 0, 0, 1⟩

/-- Routine `quat.setAxisAngle(out, axis, rad)`. -/
def setAxisAngle (M : MathLib (Ext α)) (axis : Vec3 (Ext α)) (rad : Ext α) : Quat (Ext α) :=
  let rad := rad * (1 / 2)
  let s := M.sin rad
  ⟨s * axis.x, s * axis.y, s * axis.z, M.cos rad⟩

/-- Routine `quat.normalize(out, a)` (that is `vec4.normalize`). -/
def normalize (M : MathLib (Ext α)) (a : Quat (Ext α)) : Quat (Ext α) :=
  let len := a.x * a.x + a.y * a.y + a.z * a.z + a.w * a.w
  let len := if len > 0 then 1 / M.sqrt len else len
  ⟨a.x * len, a.y * len, a.z * len, a.w * len⟩

/-- Routine `quat.rotateZ(out, a, rad)`. -/
def rotateZ (M : MathLib (Ext α)) (a : Quat (Ext α)) (rad : Ext α) : Quat (Ext α) :=
  let rad := rad * (1 / 2)
  let bz := M.sin rad
  let bw := M.cos rad
  ⟨a.x * bw + a.y * bz, a.y * bw - a.x * bz, a.z * bw + a.w * bz, a.w * bw - a.z * bz⟩

/-- Routine `quat.rotationTo(out, a, b)`: the three branches on the dot product, with
the library thresholds `0.999999` and `0.000001`. -/
def rotationTo (M : MathLib (Ext α)) (a b : Vec3 (Ext α)) : Quat (Ext α) :=
  let dot := vec3.dot a b
  if dot < -(999999 / 1000000) then
    let tmpvec3 := vec3.cross (vec3.fromValues 1 0 0) a
    let tmpvec3 :=
      if vec3.length M tmpvec3 < 1 / 1000000 then vec3.cross (vec3.fromValues 0 1 0) a
      else tmpvec3
    let tmpvec3 := vec3.normalize M tmpvec3
    setAxisAngle M tmpvec3 M.PI
  else if dot > 999999 / 1000000 then
    ⟨0, 0, 0, 1⟩
  else
    let tmpvec3 := vec3.cross a b
    normalize M ⟨tmpvec3.x, tmpvec3.y, tmpvec3.z, 1 + dot⟩

end quat

namespace mat4

/-- Routine `mat4.create()` and `mat4.identity(out)`. -/
def identity : Mat4 (Ext α) := ⟨1, 0, 0, 0, 0, 1, 0, 0, 0, 0, 1, 0, 0, 0, 0, 1⟩

/-- Routine `mat4.create()`. -/
def create : Mat4 (Ext α) := identity

/-- Routine `mat4.translate(out, a, v)` with `out` and `a` the same array, as the
drawer calls it: only indices 12 to 15 are written. -/
def translate (a : Mat4 (Ext α)) (v : Vec3 (Ext α)) : Mat4 (Ext α) :=
  { a with
    e12 := a.e0 * v.x + a.e4 * v.y + a.e8 * v.z + a.e12
    e13 := a.e1 * v.x + a.e5 * v.y + a.e9 * v.z + a.e13
    e14 := a.e2 * v.x + a.e6 * v.y + a.e10 * v.z + a.e14
    e15 := a.e3 * v.x + a.e7 * v.y + a.e11 * v.z + a.e15 }

/-- Routine `mat4.scale(out, a, v)`. -/
def scale (a : Mat4 (Ext α)) (v : Vec3 (Ext α)) : Mat4 (Ext α) :=
  ⟨a.e0 * v.x, a.e1 * v.x, a.e2 * v.x, a.e3 * v.x,
   a.e4 * v.y, a.e5 * v.y, a.e6 * v.y, a.e7 * v.y,
   a.e8 * v.z, a.e9 * v.z, a.e10 * v.z, a.e11 * v.z,
   a.e12, a.e13, a.e14, a.e15⟩

/-- Routine `mat4.fromQuat(out, q)`. -/
def fromQuat (q : Quat (Ext α)) : Mat4 (Ext α) :=
  let x := q.x
  let y := q.y
  let z := q.z
  let w := q.w
  let x2 := x + x
  let y2 := y + y
  let z2 := z + z
  let xx := x * x2
  let yx := y * x2
  let yy := y * y2
  let zx := z * x2
  let zy := z * y2
  let zz := z * z2
  let wx := w * x2
  let wy := w * y2
  let wz := w * z2
  ⟨1 - yy - zz, yx + wz, zx - wy, 0,
   yx - wz, 1 - xx - zz, zy + wx, 0,
   zx + wy, zy - wx, 1 - xx - yy, 0,
   0, 0, 0, 1⟩

/-- Routine `mat4.multiply(out, a, b)` (alias `mat4.mul`). -/
def mul (a b : Mat4 (Ext α)) : Mat4 (Ext α) :=
  ⟨b.e0 * a.e0 + b.e1 * a.e4 + b.e2 * a.e8 + b.e3 * a.e12,
   b.e0 * a.e1 + b.e1 * a.e5 + b.e2 * a.e9 + b.e3 * a.e13,
   b.e0 * a.e2 + b.e1 * a.e6 + b.e2 * a.e10 + b.e3 * a.e14,
   b.e0 * a.e3 + b.e1 * a.e7 + b.e2 * a.e11 + b.e3 * a.e15,
   b.e4 * a.e0 + b.e5 * a.e4 + b.e6 * a.e8 + b.e7 * a.e12,
   b.e4 * a.e1 + b.e5 * a.e5 + b.e6 * a.e9 + b.e7 * a.e13,
   b.e4 * a.e2 + b.e5 * a.e6 + b.e6 * a.e10 + b.e7 * a.e14,
   b.e4 * a.e3 + b.e5 * a.e7 + b.e6 * a.e11 + b.e7 * a.e15,
   b.e8 * a.e0 + b.e9 * a.e4 + b.e10 * a.e8 + b.e11 * a.e12,
   b.e8 * a.e1 + b.e9 * a.e5 + b.e10 * a.e9 + b.e11 * a.e13,
   b.e8 * a.e2 + b.e9 * a.e6 + b.e10 * a.e10 + b.e11 * a.e14,
   b.e8 * a.e3 + b.e9 * a.e7 + b.e10 * a.e11 + b.e11 * a.e15,
   b.e12 * a.e0 + b.e13 * a.e4 + b.e14 * a.e8 + b.e15 * a.e12,
   b.e12 * a.e1 + b.e13 * a.e5 + b.e14 * a.e9 + b.e15 * a.e13,
   b.e12 * a.e2 + b.e13 * a.e6 + b.e14 * a.e10 + b.e15 * a.e14,
   b.e12 * a.e3 + b.e13 * a.e7 + b.e14 * a.e11 + b.e15 * a.e15⟩

end mat4


namespace DebugDrawer

/-- The constructor: `new DebugDrawer(program, pixelsPerMeter)`.  The
projection-view matrix starts as `null`. -/
def new (pixelsPerMeter : Ext α) : DebugDrawer (Ext α) :=
  { pixelsPerMeter := pixelsPerMeter
    mvpMatrix := mat4.create
    modelMatrix := mat4.create
    projViewMatrix := none
    lineWidth := 4
    centerX := 0
    centerY := 0
    tempVec := vec3.create
    fromX := 0
    fromY := 0
    toX := 0
    toY := 0
    length := 0
    position := vec3.create
    rotation := quat.create
    scale := vec3.create
    color := vec3.create
    unitX := vec3.fromValues 1 0 0
    xf := vec3.create
    radianOffset := 0
    quatMat := mat4.create
    q := quat.create
    glLog := [] }

/-- The assignment `debugDrawer.projViewMatrix = projViewMatrix` made by the
caller in `index.js`. -/
def setProjViewMatrix (d : DebugDrawer (Ext α)) (m : Mat4 (Ext α)) : DebugDrawer (Ext α) :=
  { d with projViewMatrix := some m }

/-- Lines 45 to 48 of `drawLine`: the endpoints in pixels. -/
def drawLineEndpoints (d : DebugDrawer (Ext α)) (pointA pointB : Point (Ext α)) : DebugDrawer (Ext α) :=
  let d := { d with fromX := pointA.x * d.pixelsPerMeter }
  let d := { d with fromY := pointA.y * d.pixelsPerMeter }
  let d := { d with toX := pointB.x * d.pixelsPerMeter }
  let d := { d with toY := pointB.y * d.pixelsPerMeter }
  d

/-- Lines 49 to 53 of `drawLine`: the centre along X. -/
def drawLineCenterX (d : DebugDrawer (Ext α)) : DebugDrawer (Ext α) :=
  if d.fromX > d.toX then
    { d with centerX := d.toX + Ext.abs (d.fromX - d.toX) / 2 }
  else
    { d with centerX := d.fromX + Ext.abs (d.toX - d.fromX) / 2 }

/-- Lines 54 to 58 of `drawLine`: the centre along Y. -/
def drawLineCenterY (d : DebugDrawer (Ext α)) : DebugDrawer (Ext α) :=
  if d.fromY > d.toY then
    { d with centerY := d.toY + Ext.abs (d.fromY - d.toY) / 2 }
  else
    { d with centerY := d.fromY + Ext.abs (d.toY - d.fromY) / 2 }

/-- Lines 59 to 62 of `drawLine`: direction, length and normalisation. -/
def drawLineDirection (M : MathLib (Ext α)) (d : DebugDrawer (Ext α)) : DebugDrawer (Ext α) :=
  let d := { d with tempVec := { d.tempVec with x := d.toX - d.fromX } }
  let d := { d with tempVec := { d.tempVec with y := d.toY - d.fromY } }
  let d := { d with length := vec3.length M d.tempVec }
  let d := { d with tempVec := vec3.normalize M d.tempVec }
  d

/-- Lines 64 to 70 of `drawLine`: position, rotation and scale of the segment. -/
def drawLineSegmentFrame (M : MathLib (Ext α)) (d : DebugDrawer (Ext α)) : DebugDrawer (Ext α) :=
  let d := { d with position := { d.position with x := d.centerX } }
  let d := { d with position := { d.position with y := d.centerY } }
  let d := { d with position := { d.position with z := 0 } }
  let d := { d with rotation := quat.rotationTo M d.unitX d.tempVec }
  let d := { d with scale := { d.scale with x := d.length } }
  let d := { d with scale := { d.scale with y := d.lineWidth } }
  let d := { d with scale := { d.scale with z := 1 } }
  d

/-- Lines 72 to 77 of `drawLine`: the parent frame. -/
def drawLineParent (M : MathLib (Ext α)) (d : DebugDrawer (Ext α)) : DebugDrawer (Ext α) :=
  let d := { d with modelMatrix := mat4.identity }
  let d := { d with modelMatrix := mat4.translate d.modelMatrix d.xf }
  let d := { d with q := quat.identity }
  let d := { d with q := quat.rotateZ M d.q d.radianOffset }
  let d := { d with quatMat := mat4.fromQuat d.q }
  let d := { d with modelMatrix := mat4.mul d.modelMatrix d.quatMat }
  d

/-- Lines 78 to 81 of `drawLine`: the segment frame applied to the parent. -/
def drawLineCompose (d : DebugDrawer (Ext α)) : DebugDrawer (Ext α) :=
  let d := { d with modelMatrix := mat4.translate d.modelMatrix d.position }
  let d := { d with quatMat := mat4.fromQuat d.rotation }
  let d := { d with modelMatrix := mat4.mul d.modelMatrix d.quatMat }
  let d := { d with modelMatrix := mat4.scale d.modelMatrix d.scale }
  d

/-- Lines 45 to 81 of `drawLine`: everything up to and including
`mat4.scale`, none of which can throw. -/
def drawLineModel (M : MathLib (Ext α)) (d : DebugDrawer (Ext α)) (pointA pointB : Point (Ext α)) :
    DebugDrawer (Ext α) :=
  let d := drawLineEndpoints d pointA pointB
  let d := drawLineCenterX d
  let d := drawLineCenterY d
  let d := drawLineDirection M d
  let d := drawLineSegmentFrame M d
  let d := drawLineParent M d
  let d := drawLineCompose d
  d

/-- Method `drawLine(pointA, pointB)`.  `Except.error` carries the object as it is
when `mat4.mul` throws on a `null` projection-view matrix. -/
def drawLine (M : MathLib (Ext α)) (d : DebugDrawer (Ext α)) (pointA pointB : Point (Ext α)) :
    Except (DebugDrawer (Ext α)) (DebugDrawer (Ext α)) :=
  let d := drawLineModel M d pointA pointB
  match d.projViewMatrix with
  | none => Except.error d
  | some pv =>
    let d := { d with mvpMatrix := mat4.mul pv d.modelMatrix }
    let d := { d with glLog := d.glLog ++ [GLCall.uniformMatrix4fv d.mvpMatrix] }
    let d := { d with glLog := d.glLog ++ [GLCall.drawArrays 0 4] }
    Except.ok d

end DebugDrawer

end IEEE

/-- The object after a call, whether it returned or threw. -/
def stateOf (r : Except (DebugDrawer α) (DebugDrawer α)) : DebugDrawer α :=
  match r with
  | Except.ok d => d
  | Except.error d => d

/-! ## Closed forms and specification-side definitions -/

/-- The value lines 49 to 58 of `drawLine` assign to `centerX` (and to
`centerY`) from the two pixel coordinates `a` (from) and `b` (to). -/
def centerOf (a b : α) : α :=
  if a > b then b + |a - b| / 2 else a + |b - a| / 2

/-- The contents of `tempVec` after lines 59 and 60 of `drawLine`: the pixel
difference of the endpoints, the third entry being whatever was there. -/
def direction (d : DebugDrawer α) (pointA pointB : Point α) : Vec3 α :=
  ⟨pointB.x * d.pixelsPerMeter - pointA.x * d.pixelsPerMeter,
   pointB.y * d.pixelsPerMeter - pointA.y * d.pixelsPerMeter,
   d.tempVec.z⟩

/-- The parent-frame matrix built by lines 72 to 77 of `drawLine`. -/
def parentMatrix (M : MathLib α) (d : DebugDrawer α) : Mat4 α :=
  mat4.mul (mat4.translate mat4.identity d.xf)
    (mat4.fromQuat (quat.rotateZ M quat.identity d.radianOffset))

/-- Exactness of the `Math` functions: what the proofs use of square root,
sine, cosine and pi.  The real functions satisfy every clause. -/
structure MathLib.Exact (M : MathLib α) : Prop where
  sqrt_nonneg : ∀ x, 0 ≤ x → 0 ≤ M.sqrt x
  sqrt_mul_self : ∀ x, 0 ≤ x → M.sqrt x * M.sqrt x = x
  sin_zero : M.sin 0 = 0
  cos_zero : M.cos 0 = 1
  sin_sq_add_cos_sq : ∀ t, M.sin t * M.sin t + M.cos t * M.cos t = 1
  sin_two_mul : ∀ t, M.sin (2 * t) = 2 * M.sin t * M.cos t
  cos_two_mul : ∀ t, M.cos (2 * t) = M.cos t * M.cos t - M.sin t * M.sin t
  sin_pi_half : M.sin (M.PI * (1 / 2)) = 1
  cos_pi_half : M.cos (M.PI * (1 / 2)) = 0

/-- The drawer states that arise from the constructor through the caller's
assignment of the projection-view matrix and calls of the four implemented
methods, whether those calls return or throw. -/
inductive Reachable (M : MathLib α) : DebugDrawer α → Prop
  | construct (pixelsPerMeter : α) : Reachable M (DebugDrawer.new pixelsPerMeter)
  | setProjView (d : DebugDrawer α) (m : Mat4 α) :
      Reachable M d → Reachable M (d.setProjViewMatrix m)
  | push (d : DebugDrawer α) (xf : Transform α) :
      Reachable M d → Reachable M (d.PushTransform xf)
  | pop (d : DebugDrawer α) (xf : Transform α) :
      Reachable M d → Reachable M (d.PopTransform xf)
  | line (d : DebugDrawer α) (pointA pointB : Point α) :
      Reachable M d → Reachable M (stateOf (d.drawLine M pointA pointB))
  | polygon (d : DebugDrawer α) (vertices : List (Point α)) (vertexCount : Nat)
      (color : Color α) :
      Reachable M d → Reachable M (stateOf (d.DrawSolidPolygon M vertices vertexCount color))

/-- Entry `k` of a `mat4`, as the typed array is indexed. -/
def Mat4.entry (m : Mat4 α) (k : Nat) : α :=
  match k with
  | 0 => m.e0
  | 1 => m.e1
  | 2 => m.e2
  | 3 => m.e3
  | 4 => m.e4
  | 5 => m.e5
  | 6 => m.e6
  | 7 => m.e7
  | 8 => m.e8
  | 9 => m.e9
  | 10 => m.e10
  | 11 => m.e11
  | 12 => m.e12
  | 13 => m.e13
  | 14 => m.e14
  | _ => m.e15

/-- A `mat4` read as a mathematical matrix: column-major storage, so entry
`(r, c)` is index `4 * c + r`. -/
def toMatrix (m : Mat4 α) : Matrix (Fin 4) (Fin 4) α :=
  Matrix.of fun r c => m.entry (4 * c.val + r.val)

namespace Spec

/-- Translation by `v`, as a homogeneous matrix. -/
def T (v : Vec3 α) : Matrix (Fin 4) (Fin 4) α :=
  !![1, 0, 0, v.x;
     0, 1, 0, v.y;
     0, 0, 1, v.z;
     0, 0, 0, 1]

/-- Rotation about the Z axis by the angle `t` in radians. -/
def Rz (M : MathLib α) (t : α) : Matrix (Fin 4) (Fin 4) α :=
  !![M.cos t, -M.sin t, 0, 0;
     M.sin t, M.cos t, 0, 0;
     0, 0, 1, 0;
     0, 0, 0, 1]

/-- The rotation matrix of the quaternion `q`. -/
def R (q : Quat α) : Matrix (Fin 4) (Fin 4) α :=
  !![1 - 2 * (q.y * q.y + q.z * q.z), 2 * (q.x * q.y - q.w * q.z),
       2 * (q.x * q.z + q.w * q.y), 0;
     2 * (q.x * q.y + q.w * q.z), 1 - 2 * (q.x * q.x + q.z * q.z),
       2 * (q.y * q.z - q.w * q.x), 0;
     2 * (q.x * q.z - q.w * q.y), 2 * (q.y * q.z + q.w * q.x),
       1 - 2 * (q.x * q.x + q.y * q.y), 0;
     0, 0, 0, 1]

/-- Scaling by `v` along the three axes. -/
def S (v : Vec3 α) : Matrix (Fin 4) (Fin 4) α :=
  !![v.x, 0, 0, 0;
     0, v.y, 0, 0;
     0, 0, v.z, 0;
     0, 0, 0, 1]

end Spec

/-- The image of the point `v` (homogeneous coordinate 1) under the matrix
`m`, as the vertex stage computes it; the fourth coordinate is dropped. -/
def transformPoint (m : Mat4 α) (v : Vec3 α) : Vec3 α :=
  ⟨m.e0 * v.x + m.e4 * v.y + m.e8 * v.z + m.e12,
   m.e1 * v.x + m.e5 * v.y + m.e9 * v.z + m.e13,
   m.e2 * v.x + m.e6 * v.y + m.e10 * v.z + m.e14⟩

/-- The corners of the unit quad, in the order of `vertPositions` in
`index.js` (lines 28 to 33). -/
def quadCorners : List (Vec3 α) :=
  [⟨-(1 / 2), -(1 / 2), 0⟩, ⟨1 / 2, -(1 / 2), 0⟩, ⟨-(1 / 2), 1 / 2, 0⟩, ⟨1 / 2, 1 / 2, 0⟩]

/-- The footprint of a model matrix: the images of the four quad corners. -/
def footprint (m : Mat4 α) : List (Vec3 α) :=
  quadCorners.map (transformPoint m)

/-- Whether a logged call is a `gl.drawArrays`. -/
def GLCall.isDrawArrays : GLCall α → Bool
  | GLCall.drawArrays _ _ => true
  | _ => false

/-- Whether a logged call is a `gl.uniformMatrix4fv`. -/
def GLCall.isUniformMatrix4fv : GLCall α → Bool
  | GLCall.uniformMatrix4fv _ => true
  | _ => false

/-- The rotation of the XY plane with cosine `c` and sine `s`, in `mat4`
storage. -/
def planarRotation (c s : α) : Mat4 α :=
  ⟨c, s, 0, 0, -s, c, 0, 0, 0, 0, 1, 0, 0, 0, 0, 1⟩

/-- The invariant of the scratch state: the third entries of `tempVec` and
`xf` are zero, `unitX` is the X axis, and `mvpMatrix` is untouched as long as
no projection-view matrix was assigned. -/
def Inv (d : DebugDrawer α) : Prop :=
  d.tempVec.z = 0 ∧ d.xf.z = 0 ∧ d.unitX = ⟨1, 0, 0⟩ ∧
    (d.projViewMatrix = none → d.mvpMatrix = mat4.create)

/-- Two drawer states agree on everything `drawLine` reads. -/
def FrameEq (d e : DebugDrawer α) : Prop :=
  e.pixelsPerMeter = d.pixelsPerMeter ∧ e.lineWidth = d.lineWidth ∧ e.xf = d.xf ∧
    e.radianOffset = d.radianOffset ∧ e.unitX = d.unitX ∧
    e.projViewMatrix = d.projViewMatrix ∧ e.tempVec.z = d.tempVec.z

end Drawer

end DebugDraw

namespace DebugDraw

section Lemmas

set_option linter.unusedSectionVars false

variable {α : Type} [LinearOrderedField α]

open DebugDrawer

/-! ## What `drawLine` leaves in each field -/

theorem drawLineModel_eq (M : MathLib α) (d : DebugDrawer α) (A B : Point α) :
    drawLineModel M d A B =
      { d with
        fromX := A.x * d.pixelsPerMeter
        fromY := A.y * d.pixelsPerMeter
        toX := B.x * d.pixelsPerMeter
        toY := B.y * d.pixelsPerMeter
        centerX := centerOf (A.x * d.pixelsPerMeter) (B.x * d.pixelsPerMeter)
        centerY := centerOf (A.y * d.pixelsPerMeter) (B.y * d.pixelsPerMeter)
        tempVec := vec3.normalize M (direction d A B)
        length := vec3.length M (direction d A B)
        position := ⟨centerOf (A.x * d.pixelsPerMeter) (B.x * d.pixelsPerMeter),
          centerOf (A.y * d.pixelsPerMeter) (B.y * d.pixelsPerMeter), 0⟩
        rotation := quat.rotationTo M d.unitX (vec3.normalize M (direction d A B))
        scale := ⟨vec3.length M (direction d A B), d.lineWidth, 1⟩
        q := quat.rotateZ M quat.identity d.radianOffset
        quatMat := mat4.fromQuat
          (quat.rotationTo M d.unitX (vec3.normalize M (direction d A B)))
        modelMatrix := mat4.scale
          (mat4.mul
            (mat4.translate (parentMatrix M d)
              ⟨centerOf (A.x * d.pixelsPerMeter) (B.x * d.pixelsPerMeter),
               centerOf (A.y * d.pixelsPerMeter) (B.y * d.pixelsPerMeter), 0⟩)
            (mat4.fromQuat
              (quat.rotationTo M d.unitX (vec3.normalize M (direction d A B)))))
          ⟨vec3.length M (direction d A B), d.lineWidth, 1⟩ } := by
  simp only [drawLineModel, drawLineCompose, drawLineParent, drawLineSegmentFrame,
    drawLineDirection, drawLineCenterY, drawLineCenterX, drawLineEndpoints, centerOf,
    direction, parentMatrix]
  split_ifs <;> rfl

theorem drawLineModel_projViewMatrix (M : MathLib α) (d : DebugDrawer α) (A B : Point α) :
    (drawLineModel M d A B).projViewMatrix = d.projViewMatrix := by
  rw [drawLineModel_eq]

theorem drawLineModel_glLog (M : MathLib α) (d : DebugDrawer α) (A B : Point α) :
    (drawLineModel M d A B).glLog = d.glLog := by
  rw [drawLineModel_eq]

theorem drawLine_of_some (M : MathLib α) (d : DebugDrawer α) (A B : Point α) (pv : Mat4 α)
    (h : d.projViewMatrix = some pv) :
    drawLine M d A B = Except.ok
      { drawLineModel M d A B with
        mvpMatrix := mat4.mul pv (drawLineModel M d A B).modelMatrix
        glLog := d.glLog ++
          [GLCall.uniformMatrix4fv (mat4.mul pv (drawLineModel M d A B).modelMatrix),
           GLCall.drawArrays 0 4] } := by
  have hp := drawLineModel_projViewMatrix M d A B
  rw [h] at hp
  simp only [drawLine, hp, drawLineModel_glLog, List.append_assoc, List.singleton_append]

theorem drawLine_of_none (M : MathLib α) (d : DebugDrawer α) (A B : Point α)
    (h : d.projViewMatrix = none) :
    drawLine M d A B = Except.error (drawLineModel M d A B) := by
  have hp := drawLineModel_projViewMatrix M d A B
  rw [h] at hp
  simp only [drawLine, hp]

/-- Every field other than `mvpMatrix` and `glLog` is, after `drawLine`, what
lines 45 to 81 left in it. -/
theorem stateOf_drawLine_cases (M : MathLib α) (d : DebugDrawer α) (A B : Point α) :
    stateOf (drawLine M d A B) = drawLineModel M d A B ∨
    ∃ pv, d.projViewMatrix = some pv ∧ stateOf (drawLine M d A B) =
      { drawLineModel M d A B with
        mvpMatrix := mat4.mul pv (drawLineModel M d A B).modelMatrix
        glLog := d.glLog ++
          [GLCall.uniformMatrix4fv (mat4.mul pv (drawLineModel M d A B).modelMatrix),
           GLCall.drawArrays 0 4] } := by
  cases h : d.projViewMatrix with
  | none => left; rw [drawLine_of_none M d A B h]; rfl
  | some pv => right; exact ⟨pv, rfl, by rw [drawLine_of_some M d A B pv h]; rfl⟩

theorem stateOf_drawLine_modelMatrix (M : MathLib α) (d : DebugDrawer α) (A B : Point α) :
    (stateOf (drawLine M d A B)).modelMatrix = (drawLineModel M d A B).modelMatrix := by
  rcases stateOf_drawLine_cases M d A B with h | ⟨pv, _, h⟩ <;> rw [h]

theorem stateOf_drawLine_centerX (M : MathLib α) (d : DebugDrawer α) (A B : Point α) :
    (stateOf (drawLine M d A B)).centerX =
      centerOf (A.x * d.pixelsPerMeter) (B.x * d.pixelsPerMeter) := by
  rcases stateOf_drawLine_cases M d A B with h | ⟨pv, _, h⟩ <;> rw [h, drawLineModel_eq]

theorem stateOf_drawLine_centerY (M : MathLib α) (d : DebugDrawer α) (A B : Point α) :
    (stateOf (drawLine M d A B)).centerY =
      centerOf (A.y * d.pixelsPerMeter) (B.y * d.pixelsPerMeter) := by
  rcases stateOf_drawLine_cases M d A B with h | ⟨pv, _, h⟩ <;> rw [h, drawLineModel_eq]

theorem stateOf_drawLine_length (M : MathLib α) (d : DebugDrawer α) (A B : Point α) :
    (stateOf (drawLine M d A B)).length = vec3.length M (direction d A B) := by
  rcases stateOf_drawLine_cases M d A B with h | ⟨pv, _, h⟩ <;> rw [h, drawLineModel_eq]

theorem stateOf_drawLine_scale (M : MathLib α) (d : DebugDrawer α) (A B : Point α) :
    (stateOf (drawLine M d A B)).scale =
      ⟨vec3.length M (direction d A B), d.lineWidth, 1⟩ := by
  rcases stateOf_drawLine_cases M d A B with h | ⟨pv, _, h⟩ <;> rw [h, drawLineModel_eq]

theorem stateOf_drawLine_position (M : MathLib α) (d : DebugDrawer α) (A B : Point α) :
    (stateOf (drawLine M d A B)).position =
      ⟨centerOf (A.x * d.pixelsPerMeter) (B.x * d.pixelsPerMeter),
       centerOf (A.y * d.pixelsPerMeter) (B.y * d.pixelsPerMeter), 0⟩ := by
  rcases stateOf_drawLine_cases M d A B with h | ⟨pv, _, h⟩ <;> rw [h, drawLineModel_eq]

theorem stateOf_drawLine_tempVec (M : MathLib α) (d : DebugDrawer α) (A B : Point α) :
    (stateOf (drawLine M d A B)).tempVec = vec3.normalize M (direction d A B) := by
  rcases stateOf_drawLine_cases M d A B with h | ⟨pv, _, h⟩ <;> rw [h, drawLineModel_eq]

theorem stateOf_drawLine_rotation (M : MathLib α) (d : DebugDrawer α) (A B : Point α) :
    (stateOf (drawLine M d A B)).rotation =
      quat.rotationTo M d.unitX (vec3.normalize M (direction d A B)) := by
  rcases stateOf_drawLine_cases M d A B with h | ⟨pv, _, h⟩ <;> rw [h, drawLineModel_eq]

theorem stateOf_drawLine_xf (M : MathLib α) (d : DebugDrawer α) (A B : Point α) :
    (stateOf (drawLine M d A B)).xf = d.xf := by
  rcases stateOf_drawLine_cases M d A B with h | ⟨pv, _, h⟩ <;> rw [h, drawLineModel_eq]

theorem stateOf_drawLine_radianOffset (M : MathLib α) (d : DebugDrawer α) (A B : Point α) :
    (stateOf (drawLine M d A B)).radianOffset = d.radianOffset := by
  rcases stateOf_drawLine_cases M d A B with h | ⟨pv, _, h⟩ <;> rw [h, drawLineModel_eq]

theorem stateOf_drawLine_pixelsPerMeter (M : MathLib α) (d : DebugDrawer α) (A B : Point α) :
    (stateOf (drawLine M d A B)).pixelsPerMeter = d.pixelsPerMeter := by
  rcases stateOf_drawLine_cases M d A B with h | ⟨pv, _, h⟩ <;> rw [h, drawLineModel_eq]

theorem stateOf_drawLine_lineWidth (M : MathLib α) (d : DebugDrawer α) (A B : Point α) :
    (stateOf (drawLine M d A B)).lineWidth = d.lineWidth := by
  rcases stateOf_drawLine_cases M d A B with h | ⟨pv, _, h⟩ <;> rw [h, drawLineModel_eq]

theorem stateOf_drawLine_unitX (M : MathLib α) (d : DebugDrawer α) (A B : Point α) :
    (stateOf (drawLine M d A B)).unitX = d.unitX := by
  rcases stateOf_drawLine_cases M d A B with h | ⟨pv, _, h⟩ <;> rw [h, drawLineModel_eq]

theorem stateOf_drawLine_projViewMatrix (M : MathLib α) (d : DebugDrawer α) (A B : Point α) :
    (stateOf (drawLine M d A B)).projViewMatrix = d.projViewMatrix := by
  rcases stateOf_drawLine_cases M d A B with h | ⟨pv, _, h⟩ <;> rw [h, drawLineModel_eq]

theorem centerOf_eq_mean (a b : α) : centerOf a b = (a + b) / 2 := by
  unfold centerOf
  split_ifs with h
  · rw [abs_of_pos (sub_pos.mpr h)]; ring
  · rw [abs_of_nonneg (sub_nonneg.mpr (not_lt.mp h))]; ring

/-! ## Frame equality and the invariant -/

theorem FrameEq.refl (d : DebugDrawer α) : FrameEq d d :=
  ⟨rfl, rfl, rfl, rfl, rfl, rfl, rfl⟩

theorem FrameEq.trans {d e f : DebugDrawer α} (h₁ : FrameEq d e) (h₂ : FrameEq e f) :
    FrameEq d f := by
  obtain ⟨a1, a2, a3, a4, a5, a6, a7⟩ := h₁
  obtain ⟨b1, b2, b3, b4, b5, b6, b7⟩ := h₂
  exact ⟨b1.trans a1, b2.trans a2, b3.trans a3, b4.trans a4, b5.trans a5, b6.trans a6,
    b7.trans a7⟩

theorem drawLineModel_modelMatrix_congr (M : MathLib α) {d e : DebugDrawer α}
    (h : FrameEq d e) (A B : Point α) :
    (drawLineModel M e A B).modelMatrix = (drawLineModel M d A B).modelMatrix := by
  obtain ⟨a1, a2, a3, a4, a5, a6, a7⟩ := h
  rw [drawLineModel_eq, drawLineModel_eq]
  simp only [direction, parentMatrix, a1, a2, a3, a4, a5, a7]

theorem normalize_z_zero (M : MathLib α) (v : Vec3 α) (h : v.z = 0) :
    (vec3.normalize M v).z = 0 := by
  simp [vec3.normalize, h]

theorem drawLine_frameEq (M : MathLib α) (d : DebugDrawer α) (A B : Point α)
    (hz : d.tempVec.z = 0) : FrameEq d (stateOf (drawLine M d A B)) := by
  refine ⟨stateOf_drawLine_pixelsPerMeter M d A B, stateOf_drawLine_lineWidth M d A B,
    stateOf_drawLine_xf M d A B, stateOf_drawLine_radianOffset M d A B,
    stateOf_drawLine_unitX M d A B, stateOf_drawLine_projViewMatrix M d A B, ?_⟩
  rw [stateOf_drawLine_tempVec, hz]
  exact normalize_z_zero M _ hz

theorem drawLine_inv (M : MathLib α) (d : DebugDrawer α) (A B : Point α) (h : Inv d) :
    Inv (stateOf (drawLine M d A B)) := by
  obtain ⟨h1, h2, h3, h4⟩ := h
  refine ⟨?_, ?_, ?_, ?_⟩
  · rw [stateOf_drawLine_tempVec]; exact normalize_z_zero M _ h1
  · rw [stateOf_drawLine_xf]; exact h2
  · rw [stateOf_drawLine_unitX]; exact h3
  · intro hn
    rw [stateOf_drawLine_projViewMatrix] at hn
    rw [drawLine_of_none M d A B hn]
    simp only [stateOf]
    rw [drawLineModel_eq]
    exact h4 hn

theorem drawLineAt_frameEq (M : MathLib α) (d : DebugDrawer α) (vs : List (Point α))
    (i j : Nat) (hz : d.tempVec.z = 0) : FrameEq d (stateOf (drawLineAt M d vs i j)) := by
  unfold drawLineAt
  split
  · exact FrameEq.refl d
  · exact ⟨rfl, rfl, rfl, rfl, rfl, rfl, rfl⟩
  · exact drawLine_frameEq M d _ _ hz

theorem drawLineAt_inv (M : MathLib α) (d : DebugDrawer α) (vs : List (Point α))
    (i j : Nat) (h : Inv d) : Inv (stateOf (drawLineAt M d vs i j)) := by
  unfold drawLineAt
  split
  · exact h
  · exact h
  · exact drawLine_inv M d _ _ h

theorem stateOf_bind (r : Except (DebugDrawer α) (DebugDrawer α))
    (f : DebugDrawer α → Except (DebugDrawer α) (DebugDrawer α)) :
    stateOf (r >>= f) = stateOf (f (stateOf r)) ∨ stateOf (r >>= f) = stateOf r := by
  cases r with
  | error e => right; rfl
  | ok a => left; rfl

/-- A property that every `drawLineAt` call maintains, and that does not
depend on the log, is maintained by `DrawSolidPolygon`. -/
theorem DrawSolidPolygon_maintains (M : MathLib α) (P : DebugDrawer α → Prop)
    (hlog : ∀ d l, P d → P { d with glLog := l })
    (hat : ∀ d vs i j, P d → P (stateOf (drawLineAt M d vs i j)))
    (d : DebugDrawer α) (vs : List (Point α)) (n : Nat) (c : Color α) (h : P d) :
    P (stateOf (DrawSolidPolygon M d vs n c)) := by
  unfold DrawSolidPolygon
  have h0 := hlog d (d.glLog ++ [GLCall.uniform3f c.r c.g c.b]) h
  generalize ({ d with glLog := d.glLog ++ [GLCall.uniform3f c.r c.g c.b] } : DebugDrawer α)
    = d0 at h0
  simp only [bind, Except.bind, pure, Except.pure]
  have h1 := hat d0 vs 0 1 h0
  cases r1 : drawLineAt M d0 vs 0 1 with
  | error e => rw [r1] at h1; exact h1
  | ok d1 =>
    rw [r1] at h1
    have h2 := hat d1 vs 1 2 h1
    dsimp only
    cases r2 : drawLineAt M d1 vs 1 2 with
    | error e => rw [r2] at h2; exact h2
    | ok d2 =>
      rw [r2] at h2
      have h3 := hat d2 vs 2 3 h2
      dsimp only
      cases r3 : drawLineAt M d2 vs 2 3 with
      | error e => rw [r3] at h3; exact h3
      | ok d3 =>
        rw [r3] at h3
        have h4 := hat d3 vs 3 0 h3
        dsimp only
        cases r4 : drawLineAt M d3 vs 3 0 with
        | error e => rw [r4] at h4; exact h4
        | ok d4 => rw [r4] at h4; exact h4

theorem reachable_inv (M : MathLib α) (d : DebugDrawer α) (h : Reachable M d) : Inv d := by
  induction h with
  | construct ppm => exact ⟨rfl, rfl, rfl, fun _ => rfl⟩
  | setProjView d m _ ih =>
    obtain ⟨h1, h2, h3, _⟩ := ih
    exact ⟨h1, h2, h3, fun hn => by simp [setProjViewMatrix] at hn⟩
  | push d xf _ ih =>
    obtain ⟨h1, h2, h3, h4⟩ := ih
    exact ⟨h1, h2, h3, h4⟩
  | pop d xf _ ih => exact ih
  | line d A B _ ih => exact drawLine_inv M d A B ih
  | polygon d vs n c _ ih =>
    refine DrawSolidPolygon_maintains M Inv ?_ ?_ d vs n c ih
    · intro d l h; exact h
    · intro d vs i j h; exact drawLineAt_inv M d vs i j h

theorem stateOf_drawLine_mvpMatrix (M : MathLib α) (d : DebugDrawer α) (A B : Point α)
    (pv : Mat4 α) (h : d.projViewMatrix = some pv) :
    (stateOf (drawLine M d A B)).mvpMatrix =
      mat4.mul pv (drawLineModel M d A B).modelMatrix := by
  rw [drawLine_of_some M d A B pv h]; rfl

theorem stateOf_drawLine_glLog (M : MathLib α) (d : DebugDrawer α) (A B : Point α)
    (pv : Mat4 α) (h : d.projViewMatrix = some pv) :
    (stateOf (drawLine M d A B)).glLog = d.glLog ++
      [GLCall.uniformMatrix4fv (stateOf (drawLine M d A B)).mvpMatrix,
       GLCall.drawArrays 0 4] := by
  rw [drawLine_of_some M d A B pv h]; rfl

/-- One successful `drawLine` from a state `e` that agrees with `d` on what
`drawLine` reads: it returns, keeps agreeing with `d`, and logs the matrix
that `drawLine` from `d` itself uploads. -/
theorem drawLine_step (M : MathLib α) {d e : DebugDrawer α} (A B : Point α) (pv : Mat4 α)
    (hpv : d.projViewMatrix = some pv) (hz : d.tempVec.z = 0) (h : FrameEq d e) :
    ∃ e1, drawLine M e A B = Except.ok e1 ∧ FrameEq d e1 ∧
      e1.glLog = e.glLog ++
        [GLCall.uniformMatrix4fv (stateOf (drawLine M d A B)).mvpMatrix,
         GLCall.drawArrays 0 4] := by
  have hpe : e.projViewMatrix = some pv := h.2.2.2.2.2.1.trans hpv
  have hze : e.tempVec.z = 0 := h.2.2.2.2.2.2.trans hz
  refine ⟨_, drawLine_of_some M e A B pv hpe, ?_, ?_⟩
  · have := drawLine_frameEq M e A B hze
    rw [drawLine_of_some M e A B pv hpe] at this
    exact h.trans this
  · rw [stateOf_drawLine_mvpMatrix M d A B pv hpv, drawLineModel_modelMatrix_congr M h]

theorem real_exact :
    MathLib.Exact (⟨Real.sqrt, Real.sin, Real.cos, Real.pi⟩ : MathLib ℝ) where
  sqrt_nonneg := fun x _ => Real.sqrt_nonneg x
  sqrt_mul_self := fun x hx => Real.mul_self_sqrt hx
  sin_zero := Real.sin_zero
  cos_zero := Real.cos_zero
  sin_sq_add_cos_sq := fun t => by
    have := Real.sin_sq_add_cos_sq t
    nlinarith [this]
  sin_two_mul := fun t => Real.sin_two_mul t
  cos_two_mul := fun t => by
    have h1 := Real.cos_two_mul t
    have h2 := Real.sin_sq_add_cos_sq t
    show Real.cos (2 * t) = Real.cos t * Real.cos t - Real.sin t * Real.sin t
    nlinarith [h1, h2]
  sin_pi_half := by
    show Real.sin (Real.pi * (1 / 2)) = 1
    rw [mul_one_div]; exact Real.sin_pi_div_two
  cos_pi_half := by
    show Real.cos (Real.pi * (1 / 2)) = 0
    rw [mul_one_div]; exact Real.cos_pi_div_two

/-! ## The `mat4` routines as matrix products -/

theorem matrix_ext16 {A B : Matrix (Fin 4) (Fin 4) α}
    (h00 : A 0 0 = B 0 0) (h10 : A 1 0 = B 1 0) (h20 : A 2 0 = B 2 0) (h30 : A 3 0 = B 3 0)
    (h01 : A 0 1 = B 0 1) (h11 : A 1 1 = B 1 1) (h21 : A 2 1 = B 2 1) (h31 : A 3 1 = B 3 1)
    (h02 : A 0 2 = B 0 2) (h12 : A 1 2 = B 1 2) (h22 : A 2 2 = B 2 2) (h32 : A 3 2 = B 3 2)
    (h03 : A 0 3 = B 0 3) (h13 : A 1 3 = B 1 3) (h23 : A 2 3 = B 2 3) (h33 : A 3 3 = B 3 3) : A = B := by
  ext i j
  fin_cases i <;> fin_cases j <;> first | exact h00 | exact h10 | exact h20 | exact h30 | exact h01 | exact h11 | exact h21 | exact h31 | exact h02 | exact h12 | exact h22 | exact h32 | exact h03 | exact h13 | exact h23 | exact h33

theorem toMatrix_0_0 (m : Mat4 α) : toMatrix m 0 0 = m.e0 := rfl

theorem toMatrix_1_0 (m : Mat4 α) : toMatrix m 1 0 = m.e1 := rfl

theorem toMatrix_2_0 (m : Mat4 α) : toMatrix m 2 0 = m.e2 := rfl

theorem toMatrix_3_0 (m : Mat4 α) : toMatrix m 3 0 = m.e3 := rfl

theorem toMatrix_0_1 (m : Mat4 α) : toMatrix m 0 1 = m.e4 := rfl

theorem toMatrix_1_1 (m : Mat4 α) : toMatrix m 1 1 = m.e5 := rfl

theorem toMatrix_2_1 (m : Mat4 α) : toMatrix m 2 1 = m.e6 := rfl

theorem toMatrix_3_1 (m : Mat4 α) : toMatrix m 3 1 = m.e7 := rfl

theorem toMatrix_0_2 (m : Mat4 α) : toMatrix m 0 2 = m.e8 := rfl

theorem toMatrix_1_2 (m : Mat4 α) : toMatrix m 1 2 = m.e9 := rfl

theorem toMatrix_2_2 (m : Mat4 α) : toMatrix m 2 2 = m.e10 := rfl

theorem toMatrix_3_2 (m : Mat4 α) : toMatrix m 3 2 = m.e11 := rfl

theorem toMatrix_0_3 (m : Mat4 α) : toMatrix m 0 3 = m.e12 := rfl

theorem toMatrix_1_3 (m : Mat4 α) : toMatrix m 1 3 = m.e13 := rfl

theorem toMatrix_2_3 (m : Mat4 α) : toMatrix m 2 3 = m.e14 := rfl

theorem toMatrix_3_3 (m : Mat4 α) : toMatrix m 3 3 = m.e15 := rfl

theorem toMatrix_identity : toMatrix (mat4.identity : Mat4 α) = 1 := by
  apply matrix_ext16 <;>
    simp [Matrix.vecHead, Matrix.vecTail, toMatrix_0_0, toMatrix_1_0, toMatrix_2_0, toMatrix_3_0,
      toMatrix_0_1, toMatrix_1_1, toMatrix_2_1, toMatrix_3_1,
      toMatrix_0_2, toMatrix_1_2, toMatrix_2_2, toMatrix_3_2,
      toMatrix_0_3, toMatrix_1_3, toMatrix_2_3, toMatrix_3_3, mat4.identity]

theorem toMatrix_translate (a : Mat4 α) (v : Vec3 α) :
    toMatrix (mat4.translate a v) = toMatrix a * Spec.T v := by
  apply matrix_ext16 <;>
    simp [Matrix.vecHead, Matrix.vecTail, Matrix.mul_apply, Fin.sum_univ_four, toMatrix_0_0, toMatrix_1_0, toMatrix_2_0, toMatrix_3_0,
      toMatrix_0_1, toMatrix_1_1, toMatrix_2_1, toMatrix_3_1,
      toMatrix_0_2, toMatrix_1_2, toMatrix_2_2, toMatrix_3_2,
      toMatrix_0_3, toMatrix_1_3, toMatrix_2_3, toMatrix_3_3, mat4.translate, Spec.T]

theorem toMatrix_scale (a : Mat4 α) (v : Vec3 α) :
    toMatrix (mat4.scale a v) = toMatrix a * Spec.S v := by
  apply matrix_ext16 <;>
    simp [Matrix.vecHead, Matrix.vecTail, Matrix.mul_apply, Fin.sum_univ_four, toMatrix_0_0, toMatrix_1_0, toMatrix_2_0, toMatrix_3_0,
      toMatrix_0_1, toMatrix_1_1, toMatrix_2_1, toMatrix_3_1,
      toMatrix_0_2, toMatrix_1_2, toMatrix_2_2, toMatrix_3_2,
      toMatrix_0_3, toMatrix_1_3, toMatrix_2_3, toMatrix_3_3, mat4.scale, Spec.S]

theorem toMatrix_mul (a b : Mat4 α) :
    toMatrix (mat4.mul a b) = toMatrix a * toMatrix b := by
  apply matrix_ext16 <;>
    simp only [Matrix.mul_apply, Fin.sum_univ_four, toMatrix_0_0, toMatrix_1_0, toMatrix_2_0, toMatrix_3_0,
      toMatrix_0_1, toMatrix_1_1, toMatrix_2_1, toMatrix_3_1,
      toMatrix_0_2, toMatrix_1_2, toMatrix_2_2, toMatrix_3_2,
      toMatrix_0_3, toMatrix_1_3, toMatrix_2_3, toMatrix_3_3, mat4.mul] <;>
    ring1

theorem toMatrix_fromQuat (q : Quat α) : toMatrix (mat4.fromQuat q) = Spec.R q := by
  apply matrix_ext16 <;>
    simp [Matrix.vecHead, Matrix.vecTail, toMatrix_0_0, toMatrix_1_0, toMatrix_2_0, toMatrix_3_0,
      toMatrix_0_1, toMatrix_1_1, toMatrix_2_1, toMatrix_3_1,
      toMatrix_0_2, toMatrix_1_2, toMatrix_2_2, toMatrix_3_2,
      toMatrix_0_3, toMatrix_1_3, toMatrix_2_3, toMatrix_3_3, mat4.fromQuat, Spec.R] <;>
    ring1

theorem toMatrix_planarRotation (M : MathLib α) (t : α) :
    toMatrix (planarRotation (M.cos t) (M.sin t)) = Spec.Rz M t := by
  apply matrix_ext16 <;>
    simp [Matrix.vecHead, Matrix.vecTail, toMatrix_0_0, toMatrix_1_0, toMatrix_2_0, toMatrix_3_0,
      toMatrix_0_1, toMatrix_1_1, toMatrix_2_1, toMatrix_3_1,
      toMatrix_0_2, toMatrix_1_2, toMatrix_2_2, toMatrix_3_2,
      toMatrix_0_3, toMatrix_1_3, toMatrix_2_3, toMatrix_3_3, planarRotation, Spec.Rz]

theorem fromQuat_rotateZ (M : MathLib α) (hM : M.Exact) (t : α) :
    mat4.fromQuat (quat.rotateZ M quat.identity t) =
      planarRotation (M.cos t) (M.sin t) := by
  have ht : t = 2 * (t * (1 / 2)) := by ring
  have hs := hM.sin_two_mul (t * (1 / 2))
  have hc := hM.cos_two_mul (t * (1 / 2))
  have hp := hM.sin_sq_add_cos_sq (t * (1 / 2))
  rw [← ht] at hs hc
  simp only [mat4.fromQuat, quat.rotateZ, quat.identity, planarRotation, Mat4.mk.injEq]
  rw [hs, hc]
  generalize M.sin (t * (1 / 2)) = a at hp
  generalize M.cos (t * (1 / 2)) = b at hp
  refine ⟨?_, ?_, ?_, ?_, ?_, ?_, ?_, ?_, ?_, ?_, ?_, ?_, ?_, ?_, ?_, ?_⟩ <;>
    first | trivial | ring1 | linear_combination hp | linear_combination -hp

theorem toMatrix_fromQuat_rotateZ (M : MathLib α) (hM : M.Exact) (t : α) :
    toMatrix (mat4.fromQuat (quat.rotateZ M quat.identity t)) = Spec.Rz M t := by
  rw [fromQuat_rotateZ M hM t, toMatrix_planarRotation]

theorem toMatrix_parentMatrix (M : MathLib α) (hM : M.Exact) (d : DebugDrawer α) :
    toMatrix (parentMatrix M d) = Spec.T d.xf * Spec.Rz M d.radianOffset := by
  rw [parentMatrix, toMatrix_mul, toMatrix_translate, toMatrix_identity,
    toMatrix_fromQuat_rotateZ M hM, one_mul]

/-! ## Square roots -/

theorem sqrt_unique (M : MathLib α) (hM : M.Exact) {x y : α} (hy : 0 ≤ y) (h : y * y = x) :
    M.sqrt x = y := by
  have hx : 0 ≤ x := by rw [← h]; exact mul_self_nonneg y
  have h1 := hM.sqrt_nonneg x hx
  have h2 := hM.sqrt_mul_self x hx
  exact (mul_self_inj h1 hy).mp (h2.trans h.symm)

theorem sqrt_zero (M : MathLib α) (hM : M.Exact) : M.sqrt 0 = 0 :=
  sqrt_unique M hM le_rfl (by ring)

theorem sqrt_one (M : MathLib α) (hM : M.Exact) : M.sqrt 1 = 1 :=
  sqrt_unique M hM zero_le_one (by ring)

theorem sqrt_pos (M : MathLib α) (hM : M.Exact) {x : α} (hx : 0 < x) : 0 < M.sqrt x := by
  have h1 := hM.sqrt_nonneg x hx.le
  have h2 := hM.sqrt_mul_self x hx.le
  rcases h1.lt_or_eq with h | h
  · exact h
  · rw [← h] at h2; simp at h2; exact absurd h2.symm hx.ne'

/-- The length computed by line 61, on a drawer whose `tempVec` has a zero
third entry. -/
theorem length_direction (M : MathLib α) (hM : M.Exact) (d : DebugDrawer α) (A B : Point α)
    (hz : d.tempVec.z = 0) :
    vec3.length M (direction d A B) =
      M.sqrt ((B.x - A.x) * (B.x - A.x) + (B.y - A.y) * (B.y - A.y)) * |d.pixelsPerMeter| := by
  have hD : 0 ≤ (B.x - A.x) * (B.x - A.x) + (B.y - A.y) * (B.y - A.y) :=
    add_nonneg (mul_self_nonneg _) (mul_self_nonneg _)
  have h1 := hM.sqrt_nonneg _ hD
  have h2 := hM.sqrt_mul_self _ hD
  unfold vec3.length direction
  simp only [hz]
  apply sqrt_unique M hM (mul_nonneg h1 (abs_nonneg _))
  have h3 : |d.pixelsPerMeter| * |d.pixelsPerMeter| = d.pixelsPerMeter * d.pixelsPerMeter :=
    abs_mul_abs_self _
  calc M.sqrt ((B.x - A.x) * (B.x - A.x) + (B.y - A.y) * (B.y - A.y)) * |d.pixelsPerMeter| *
        (M.sqrt ((B.x - A.x) * (B.x - A.x) + (B.y - A.y) * (B.y - A.y)) * |d.pixelsPerMeter|)
      = (M.sqrt ((B.x - A.x) * (B.x - A.x) + (B.y - A.y) * (B.y - A.y)) *
          M.sqrt ((B.x - A.x) * (B.x - A.x) + (B.y - A.y) * (B.y - A.y))) *
          (|d.pixelsPerMeter| * |d.pixelsPerMeter|) := by ring
    _ = _ := by rw [h2, h3]; ring

/-! ## The segment rotation -/

theorem fromQuat_half_turn : mat4.fromQuat (⟨0, 0, -1, 0⟩ : Quat α) = planarRotation (-1) 0 := by
  simp only [mat4.fromQuat, planarRotation, Mat4.mk.injEq]
  refine ⟨?_, ?_, ?_, ?_, ?_, ?_, ?_, ?_, ?_, ?_, ?_, ?_, ?_, ?_, ?_, ?_⟩ <;>
    first | trivial | ring1

theorem fromQuat_no_turn : mat4.fromQuat (⟨0, 0, 0, 1⟩ : Quat α) = planarRotation 1 0 := by
  simp only [mat4.fromQuat, planarRotation, Mat4.mk.injEq]
  refine ⟨?_, ?_, ?_, ?_, ?_, ?_, ?_, ?_, ?_, ?_, ?_, ?_, ?_, ?_, ?_, ?_⟩ <;>
    first | trivial | ring1

/-- The three branches of `quat.rotationTo` when the first vector is the X
axis. -/
theorem rotationTo_unitX (M : MathLib α) (hM : M.Exact) (b : Vec3 α) :
    quat.rotationTo M ⟨1, 0, 0⟩ b =
      if b.x < -(999999 / 1000000) then ⟨0, 0, -1, 0⟩
      else if b.x > 999999 / 1000000 then ⟨0, 0, 0, 1⟩
      else quat.normalize M ⟨0, -b.z, b.y, 1 + b.x⟩ := by
  have hdot : vec3.dot (⟨1, 0, 0⟩ : Vec3 α) b = b.x := by
    simp [vec3.dot]
  have hc : vec3.cross (vec3.fromValues 1 0 0) (⟨1, 0, 0⟩ : Vec3 α) = ⟨0, 0, 0⟩ := by
    simp [vec3.cross, vec3.fromValues]
  have hl : vec3.length M (⟨0, 0, 0⟩ : Vec3 α) = 0 := by
    simp [vec3.length, sqrt_zero M hM]
  have hc2 : vec3.cross (vec3.fromValues 0 1 0) (⟨1, 0, 0⟩ : Vec3 α) = ⟨0, 0, -1⟩ := by
    simp [vec3.cross, vec3.fromValues]
  have hn : vec3.normalize M (⟨0, 0, -1⟩ : Vec3 α) = ⟨0, 0, -1⟩ := by
    simp [vec3.normalize, sqrt_one M hM]
  have hpos : (0 : α) < 1 / 1000000 := by norm_num
  have hx : vec3.cross (⟨1, 0, 0⟩ : Vec3 α) b = ⟨0, -b.z, b.y⟩ := by
    simp [vec3.cross]
  have hax : quat.setAxisAngle M (⟨0, 0, -1⟩ : Vec3 α) M.PI = ⟨0, 0, -1, 0⟩ := by
    simp only [quat.setAxisAngle, hM.sin_pi_half, hM.cos_pi_half, Quat.mk.injEq]
    exact ⟨by ring, by ring, by ring, trivial⟩
  unfold quat.rotationTo
  simp only [hdot, hc, hl, hpos, if_true, hc2, hn, hx, hax]

theorem fromQuat_normalize_unit (M : MathLib α) (hM : M.Exact) (c s : α)
    (hu : c * c + s * s = 1) (hlo : ¬ c < -(999999 / 1000000)) :
    mat4.fromQuat (quat.normalize M ⟨0, -0, s, 1 + c⟩) = planarRotation c s := by
  have hlen : (0 : α) * 0 + -0 * -0 + s * s + (1 + c) * (1 + c) = 2 + 2 * c := by
    linear_combination hu
  have hpos : (0 : α) < 2 + 2 * c := by
    have := not_lt.mp hlo
    linarith
  have hs0 := sqrt_pos M hM hpos
  have hss := hM.sqrt_mul_self _ hpos.le
  have hr : 1 / M.sqrt (2 + 2 * c) * (1 / M.sqrt (2 + 2 * c)) * (2 + 2 * c) = 1 := by
    field_simp
    linear_combination -hss
  simp only [quat.normalize, hlen, hpos, if_true]
  generalize 1 / M.sqrt (2 + 2 * c) = r at hr
  simp only [mat4.fromQuat, planarRotation, Mat4.mk.injEq]
  refine ⟨?_, ?_, ?_, ?_, ?_, ?_, ?_, ?_, ?_, ?_, ?_, ?_, ?_, ?_, ?_, ?_⟩ <;>
    first
    | trivial
    | ring1
    | linear_combination (-2 * r ^ 2) * hu + (c - 1) * hr
    | linear_combination s * hr
    | linear_combination (-s) * hr

theorem fromQuat_normalize_zero (M : MathLib α) (hM : M.Exact) :
    mat4.fromQuat (quat.normalize M ⟨0, -0, 0, 1 + 0⟩) = (planarRotation 1 0 : Mat4 α) := by
  have hq : quat.normalize M (⟨0, -0, 0, 1 + 0⟩ : Quat α) = ⟨0, 0, 0, 1⟩ := by
    simp [quat.normalize, sqrt_one M hM]
  rw [hq, fromQuat_no_turn]

/-- The rotation matrix of the segment, for a direction in the XY plane that
is a unit vector. -/
theorem fromQuat_rotationTo_unit (M : MathLib α) (hM : M.Exact) (n : Vec3 α) (hz : n.z = 0)
    (hu : n.x * n.x + n.y * n.y = 1) :
    mat4.fromQuat (quat.rotationTo M ⟨1, 0, 0⟩ n) =
      if n.x < -(999999 / 1000000) then planarRotation (-1) 0
      else if n.x > 999999 / 1000000 then planarRotation 1 0
      else planarRotation n.x n.y := by
  rw [rotationTo_unitX M hM n]
  split_ifs with h1 h2
  · exact fromQuat_half_turn
  · exact fromQuat_no_turn
  · rw [hz]
    exact fromQuat_normalize_unit M hM n.x n.y hu h1

/-- The rotation matrix of the segment when the direction is the zero vector. -/
theorem fromQuat_rotationTo_zero (M : MathLib α) (hM : M.Exact) :
    mat4.fromQuat (quat.rotationTo M ⟨1, 0, 0⟩ ⟨0, 0, 0⟩) = (planarRotation 1 0 : Mat4 α) := by
  rw [rotationTo_unitX M hM]
  have h1 : ¬ (0 : α) < -(999999 / 1000000) := by norm_num
  have h2 : ¬ (0 : α) > 999999 / 1000000 := by norm_num
  simp only [h1, h2, if_false]
  exact fromQuat_normalize_zero M hM

theorem normalize_zero (M : MathLib α) (hM : M.Exact) (v : Vec3 α) (hx : v.x = 0)
    (hy : v.y = 0) (hz : v.z = 0) :
    vec3.normalize M v = ⟨0, 0, 0⟩ ∧ vec3.length M v = 0 := by
  constructor
  · simp [vec3.normalize, hx, hy, hz]
  · simp [vec3.length, hx, hy, hz, sqrt_zero M hM]

theorem normalize_facts (M : MathLib α) (hM : M.Exact) (v : Vec3 α) (hz : v.z = 0)
    (hv : v.x ≠ 0 ∨ v.y ≠ 0) :
    0 < vec3.length M v ∧ (vec3.normalize M v).z = 0 ∧
    (vec3.normalize M v).x * vec3.length M v = v.x ∧
    (vec3.normalize M v).y * vec3.length M v = v.y ∧
    (vec3.normalize M v).x * (vec3.normalize M v).x +
      (vec3.normalize M v).y * (vec3.normalize M v).y = 1 := by
  have hpos : 0 < v.x * v.x + v.y * v.y + v.z * v.z := by
    rw [hz]
    rcases hv with h | h
    · have := mul_self_pos.mpr h
      nlinarith [mul_self_nonneg v.y]
    · have := mul_self_pos.mpr h
      nlinarith [mul_self_nonneg v.x]
  have hs0 := sqrt_pos M hM hpos
  have hss := hM.sqrt_mul_self _ hpos.le
  have hne : M.sqrt (v.x * v.x + v.y * v.y + v.z * v.z) ≠ 0 := hs0.ne'
  simp only [vec3.length, vec3.normalize, hpos, if_true]
  generalize M.sqrt (v.x * v.x + v.y * v.y + v.z * v.z) = l at hs0 hss hne
  rw [hz] at hss
  refine ⟨hs0, by rw [hz]; ring, ?_, ?_, ?_⟩
  · field_simp
  · field_simp
  · field_simp
    linear_combination -hss

/-! ## Images of points under the model matrix -/

theorem transformPoint_model (P : Mat4 α) (pos sc : Vec3 α) (c s x y : α) :
    transformPoint
        (mat4.scale (mat4.mul (mat4.translate P pos) (planarRotation c s)) sc) ⟨x, y, 0⟩ =
      transformPoint P
        ⟨pos.x + (c * (sc.x * x) - s * (sc.y * y)),
         pos.y + (s * (sc.x * x) + c * (sc.y * y)), pos.z⟩ := by
  simp only [transformPoint, mat4.scale, mat4.mul, mat4.translate, planarRotation,
    Vec3.mk.injEq]
  refine ⟨?_, ?_, ?_⟩ <;> ring1

theorem transformPoint_identity (v : Vec3 α) : transformPoint mat4.identity v = v := by
  simp [transformPoint, mat4.identity]

theorem parentMatrix_identity (M : MathLib α) (hM : M.Exact) (d : DebugDrawer α)
    (hxf : d.xf = ⟨0, 0, 0⟩) (hrad : d.radianOffset = 0) :
    parentMatrix M d = mat4.identity := by
  rw [parentMatrix, fromQuat_rotateZ M hM, hxf, hrad, hM.sin_zero, hM.cos_zero]
  simp [mat4.mul, mat4.translate, mat4.identity, planarRotation]

theorem normalize_neg (M : MathLib α) (v w : Vec3 α) (hx : w.x = -v.x) (hy : w.y = -v.y)
    (hz : v.z = 0) (hw : w.z = 0) :
    vec3.length M w = vec3.length M v ∧
    (vec3.normalize M w).x = -(vec3.normalize M v).x ∧
    (vec3.normalize M w).y = -(vec3.normalize M v).y ∧
    (vec3.normalize M w).z = 0 := by
  have e : w.x * w.x + w.y * w.y + w.z * w.z = v.x * v.x + v.y * v.y + v.z * v.z := by
    rw [hx, hy, hz, hw]; ring
  simp only [vec3.length, vec3.normalize, e]
  rw [hx, hy, hw]
  refine ⟨trivial, by ring, by ring, by ring⟩

theorem footprint_half_turn (m n : Mat4 α)
    (h : ∀ x y : α, transformPoint n ⟨x, y, 0⟩ = transformPoint m ⟨-x, -y, 0⟩) (p : Vec3 α) :
    p ∈ footprint m ↔ p ∈ footprint n := by
  simp only [footprint, quadCorners, List.map_cons, List.map_nil, List.mem_cons,
    List.mem_nil_iff, or_false, h, neg_neg]
  tauto

/-- The model matrix of `drawLine` on a drawer whose `unitX` is the X axis. -/
theorem modelMatrix_formula (M : MathLib α) (d : DebugDrawer α) (A B : Point α)
    (hu : d.unitX = ⟨1, 0, 0⟩) :
    (stateOf (drawLine M d A B)).modelMatrix =
      mat4.scale
        (mat4.mul
          (mat4.translate (parentMatrix M d)
            ⟨(A.x * d.pixelsPerMeter + B.x * d.pixelsPerMeter) / 2,
             (A.y * d.pixelsPerMeter + B.y * d.pixelsPerMeter) / 2, 0⟩)
          (mat4.fromQuat (quat.rotationTo M ⟨1, 0, 0⟩ (vec3.normalize M (direction d A B)))))
        ⟨vec3.length M (direction d A B), d.lineWidth, 1⟩ := by
  rw [stateOf_drawLine_modelMatrix, drawLineModel_eq]
  simp only [hu, centerOf_eq_mean]

theorem direction_swap (d : DebugDrawer α) (A B : Point α) :
    (direction d B A).x = -(direction d A B).x ∧ (direction d B A).y = -(direction d A B).y ∧
    (direction d B A).z = (direction d A B).z := by
  refine ⟨?_, ?_, rfl⟩ <;> (simp only [direction]; ring)

/-- Swapping the endpoints of a segment of non-zero length turns the segment
rotation by half a turn. -/
theorem segment_rotation_swap (M : MathLib α) (hM : M.Exact) (d : DebugDrawer α)
    (A B : Point α) (hz : d.tempVec.z = 0)
    (hv : (direction d A B).x ≠ 0 ∨ (direction d A B).y ≠ 0) :
    ∃ c s : α,
      mat4.fromQuat (quat.rotationTo M ⟨1, 0, 0⟩ (vec3.normalize M (direction d A B))) =
        planarRotation c s ∧
      mat4.fromQuat (quat.rotationTo M ⟨1, 0, 0⟩ (vec3.normalize M (direction d B A))) =
        planarRotation (-c) (-s) := by
  have hvz : (direction d A B).z = 0 := hz
  obtain ⟨sx, sy, sz⟩ := direction_swap d A B
  obtain ⟨_, nz, _, _, nu⟩ := normalize_facts M hM (direction d A B) hvz hv
  obtain ⟨_, mx, my, mz⟩ := normalize_neg M (direction d A B) (direction d B A) sx sy hvz
    (sz.trans hvz)
  have mu : (vec3.normalize M (direction d B A)).x * (vec3.normalize M (direction d B A)).x +
      (vec3.normalize M (direction d B A)).y * (vec3.normalize M (direction d B A)).y = 1 := by
    rw [mx, my]; linear_combination nu
  rw [fromQuat_rotationTo_unit M hM _ nz nu, fromQuat_rotationTo_unit M hM _ mz mu, mx, my]
  generalize (vec3.normalize M (direction d A B)).x = c
  generalize (vec3.normalize M (direction d A B)).y = s
  by_cases h1 : c < -(999999 / 1000000)
  · have h2 : ¬ (-c < -(999999 / 1000000)) := by intro h; linarith
    have h3 : -c > 999999 / 1000000 := by linarith
    refine ⟨-1, 0, ?_, ?_⟩
    · rw [if_pos h1]
    · rw [if_neg h2, if_pos h3, neg_neg, neg_zero]
  · by_cases h2 : c > 999999 / 1000000
    · have h3 : -c < -(999999 / 1000000) := by linarith
      refine ⟨1, 0, ?_, ?_⟩
      · rw [if_neg h1, if_pos h2]
      · rw [if_pos h3, neg_zero]
    · have h3 : ¬ (-c < -(999999 / 1000000)) := by intro h; apply h2; linarith
      have h4 : ¬ (-c > 999999 / 1000000) := by intro h; apply h1; linarith
      refine ⟨c, s, ?_, ?_⟩
      · rw [if_neg h1, if_neg h2]
      · rw [if_neg h3, if_neg h4]

/-- The segment rotation is the planar rotation onto the normalised direction
when that direction lies on the X axis or its X component is within the
`0.999999` thresholds. -/
theorem segment_rotation_exact (M : MathLib α) (hM : M.Exact) (n : Vec3 α) (hz : n.z = 0)
    (hu : n.x * n.x + n.y * n.y = 1)
    (h : n.y = 0 ∨ (-(999999 / 1000000) ≤ n.x ∧ n.x ≤ 999999 / 1000000)) :
    mat4.fromQuat (quat.rotationTo M ⟨1, 0, 0⟩ n) = planarRotation n.x n.y := by
  rw [fromQuat_rotationTo_unit M hM n hz hu]
  rcases h with h | ⟨h1, h2⟩
  · rw [h] at hu ⊢
    have hx : n.x = 1 ∨ n.x = -1 := by
      have : (n.x - 1) * (n.x + 1) = 0 := by linear_combination hu
      rcases mul_eq_zero.mp this with e | e
      · left; linarith
      · right; linarith
    rcases hx with e | e
    · rw [e]
      have a1 : ¬ ((1 : α) < -(999999 / 1000000)) := by norm_num
      have a2 : (1 : α) > 999999 / 1000000 := by norm_num
      rw [if_neg a1, if_pos a2]
    · rw [e]
      have a1 : (-1 : α) < -(999999 / 1000000) := by norm_num
      rw [if_pos a1]
  · rw [if_neg (not_lt.mpr h1), if_neg (not_lt.mpr h2)]

/-! ## The arithmetic with infinities and NaN -/

theorem Ext.nan_add (x : Ext α) : (Ext.nan : Ext α) + x = Ext.nan := by
  cases x <;> rfl

theorem Ext.add_nan (x : Ext α) : x + (Ext.nan : Ext α) = Ext.nan := by
  cases x <;> rfl

theorem Ext.nan_mul (x : Ext α) : (Ext.nan : Ext α) * x = Ext.nan := by
  cases x <;> rfl

theorem Ext.mul_nan (x : Ext α) : x * (Ext.nan : Ext α) = Ext.nan := by
  cases x <;> rfl

theorem Ext.not_lt_nan (x : Ext α) : ¬ (x < (Ext.nan : Ext α)) := by
  cases x <;> simp [LT.lt, Ext.blt]

theorem Ext.posInf_sub_posInf : (Ext.posInf : Ext α) - Ext.posInf = Ext.nan := rfl

theorem Ext.fin_mul_fin (a b : α) : (Ext.fin a) * (Ext.fin b) = Ext.round (a * b) := rfl

theorem Ext.fin_add_fin (a b : α) : (Ext.fin a) + (Ext.fin b) = Ext.round (a + b) := rfl

theorem Ext.fin_sub_fin (a b : α) : (Ext.fin a) - (Ext.fin b) = Ext.round (a + -b) := rfl

theorem Ext.ofNat_eq (n : Nat) : (OfNat.ofNat n : Ext α) = Ext.round (n : α) := rfl

theorem Ext.maxValue_pos : (0 : α) < Ext.maxValue := by
  unfold Ext.maxValue
  have h : (2 : α) ^ 971 < 2 ^ 1024 := pow_lt_pow_right₀ (by norm_num) (by norm_num)
  linarith

theorem Ext.round_of_abs_le (x : α) (h : |x| ≤ Ext.maxValue) : Ext.round x = Ext.fin x := by
  obtain ⟨h1, h2⟩ := abs_le.mp h
  unfold Ext.round
  rw [if_neg (not_lt.mpr h2), if_neg (not_lt.mpr h1)]

theorem Ext.round_of_gt (x : α) (h : Ext.maxValue < x) : Ext.round x = Ext.posInf := by
  unfold Ext.round
  rw [if_pos h]

/-- The contents of `tempVec` and `length` after `drawLine`, over numbers with
infinities and NaN, whether the call returns or throws. -/
theorem ieee_drawLine_tempVec_length (M : MathLib (Ext α)) (d : DebugDrawer (Ext α))
    (A B : Point (Ext α)) :
    (stateOf (IEEE.DebugDrawer.drawLine M d A B)).tempVec =
      IEEE.vec3.normalize M
        ⟨B.x * d.pixelsPerMeter - A.x * d.pixelsPerMeter,
         B.y * d.pixelsPerMeter - A.y * d.pixelsPerMeter, d.tempVec.z⟩ ∧
    (stateOf (IEEE.DebugDrawer.drawLine M d A B)).length =
      IEEE.vec3.length M
        ⟨B.x * d.pixelsPerMeter - A.x * d.pixelsPerMeter,
         B.y * d.pixelsPerMeter - A.y * d.pixelsPerMeter, d.tempVec.z⟩ ∧
    (stateOf (IEEE.DebugDrawer.drawLine M d A B)).pixelsPerMeter = d.pixelsPerMeter := by
  have hmodel : (IEEE.DebugDrawer.drawLineModel M d A B).tempVec =
      IEEE.vec3.normalize M
        ⟨B.x * d.pixelsPerMeter - A.x * d.pixelsPerMeter,
         B.y * d.pixelsPerMeter - A.y * d.pixelsPerMeter, d.tempVec.z⟩ ∧
    (IEEE.DebugDrawer.drawLineModel M d A B).length =
      IEEE.vec3.length M
        ⟨B.x * d.pixelsPerMeter - A.x * d.pixelsPerMeter,
         B.y * d.pixelsPerMeter - A.y * d.pixelsPerMeter, d.tempVec.z⟩ ∧
    (IEEE.DebugDrawer.drawLineModel M d A B).pixelsPerMeter = d.pixelsPerMeter := by
    simp only [IEEE.DebugDrawer.drawLineModel, IEEE.DebugDrawer.drawLineCompose,
      IEEE.DebugDrawer.drawLineParent, IEEE.DebugDrawer.drawLineSegmentFrame,
      IEEE.DebugDrawer.drawLineDirection, IEEE.DebugDrawer.drawLineCenterY,
      IEEE.DebugDrawer.drawLineCenterX, IEEE.DebugDrawer.drawLineEndpoints]
    split_ifs <;> exact ⟨rfl, rfl, rfl⟩
  unfold IEEE.DebugDrawer.drawLine
  generalize IEEE.DebugDrawer.drawLineModel M d A B = m at hmodel
  dsimp only
  cases hp : m.projViewMatrix with
  | none => exact hmodel
  | some pv => exact hmodel

theorem Ext.ofNat_small (n : Nat) (h : (n : α) ≤ Ext.maxValue) :
    (OfNat.ofNat n : Ext α) = Ext.fin (n : α) := by
  rw [Ext.ofNat_eq]
  apply Ext.round_of_abs_le
  rw [abs_of_nonneg (Nat.cast_nonneg n)]
  exact h

theorem Ext.round_eq (x y : α) (h : x = y) (hb : |y| ≤ Ext.maxValue) :
    Ext.round x = Ext.fin y := by
  rw [h]
  exact Ext.round_of_abs_le y hb

end Lemmas

end DebugDraw

namespace DebugDraw

section Claims

variable {α : Type} [LinearOrderedField α]

open DebugDrawer

/-- C1: the centre `drawLine` computes with its branching `min + |delta| / 2`
form is, on each axis and whichever branch is taken, the arithmetic mean of
the pixel-scaled endpoints; swapping the endpoints gives the same centre. -/
theorem drawLine_center_is_mean (M : MathLib α) (d : DebugDrawer α) (A B : Point α) :
    (stateOf (drawLine M d A B)).centerX = (A.x + B.x) * d.pixelsPerMeter / 2 ∧
    (stateOf (drawLine M d A B)).centerY = (A.y + B.y) * d.pixelsPerMeter / 2 ∧
    (stateOf (drawLine M d B A)).centerX = (stateOf (drawLine M d A B)).centerX ∧
    (stateOf (drawLine M d B A)).centerY = (stateOf (drawLine M d A B)).centerY := by
  simp only [stateOf_drawLine_centerX, stateOf_drawLine_centerY, centerOf_eq_mean]
  refine ⟨?_, ?_, ?_, ?_⟩ <;> ring

/-- C3, as stated, fails: on a drawer with a projection-view matrix, a
segment whose two endpoints are the same point still reaches
`gl.uniformMatrix4fv` and `gl.drawArrays`. -/
theorem drawLine_equal_points_not_skipped :
    ¬ ((stateOf (drawLine (⟨Real.sqrt, Real.sin, Real.cos, Real.pi⟩ : MathLib ℝ)
          ((DebugDrawer.new 30).setProjViewMatrix mat4.identity) ⟨0, 0⟩ ⟨0, 0⟩)).glLog.countP
          GLCall.isUniformMatrix4fv = 0 ∧
       (stateOf (drawLine (⟨Real.sqrt, Real.sin, Real.cos, Real.pi⟩ : MathLib ℝ)
          ((DebugDrawer.new 30).setProjViewMatrix mat4.identity) ⟨0, 0⟩ ⟨0, 0⟩)).glLog.countP
          GLCall.isDrawArrays = 0) := by
  rw [stateOf_drawLine_glLog _ _ _ _ mat4.identity rfl]
  simp [DebugDrawer.new, setProjViewMatrix, GLCall.isDrawArrays, GLCall.isUniformMatrix4fv]

/-- C3, amended: there is no zero-length guard.  With a projection-view matrix
set, `drawLine` on two equal points appends exactly one `gl.uniformMatrix4fv`
(of the matrix it has just put in `mvpMatrix`) and one `gl.drawArrays` to the
calls made so far, as it does for any segment. -/
theorem drawLine_equal_points_one_draw (M : MathLib α) (d : DebugDrawer α) (A : Point α)
    (pv : Mat4 α) (h : d.projViewMatrix = some pv) :
    (stateOf (drawLine M d A A)).glLog = d.glLog ++
      [GLCall.uniformMatrix4fv (stateOf (drawLine M d A A)).mvpMatrix,
       GLCall.drawArrays 0 4] :=
  stateOf_drawLine_glLog M d A A pv h

/-- Instance of the amended C3 on a fresh drawer at 30 pixels per metre with the identity as projection-view matrix, both endpoints at the origin. -/
theorem drawLine_equal_points_one_draw_witness :
    (stateOf (drawLine (⟨Real.sqrt, Real.sin, Real.cos, Real.pi⟩ : MathLib ℝ)
        ((DebugDrawer.new 30).setProjViewMatrix mat4.identity) ⟨0, 0⟩ ⟨0, 0⟩)).glLog =
      ((DebugDrawer.new (30 : ℝ)).setProjViewMatrix mat4.identity).glLog ++
      [GLCall.uniformMatrix4fv
        (stateOf (drawLine (⟨Real.sqrt, Real.sin, Real.cos, Real.pi⟩ : MathLib ℝ)
          ((DebugDrawer.new 30).setProjViewMatrix mat4.identity) ⟨0, 0⟩ ⟨0, 0⟩)).mvpMatrix,
       GLCall.drawArrays 0 4] :=
  drawLine_equal_points_one_draw _ _ _ mat4.identity rfl

/-- C4, evaluated at a quarter turn: for the transform with position `(1, 2)`
and angle `pi / 2`, at 30 pixels per metre, `PushTransform` stores the offset
`(30, 60)` and stores `1`, the sine of the angle, in `radianOffset`; the
angle itself is `pi / 2`, which is not `1`. -/
theorem PushTransform_stores_sine :
    ((DebugDrawer.new (30 : ℝ)).PushTransform
        ⟨⟨1, 2⟩, ⟨Real.sin (Real.pi / 2), Real.cos (Real.pi / 2)⟩⟩).xf = ⟨30, 60, 0⟩ ∧
    ((DebugDrawer.new (30 : ℝ)).PushTransform
        ⟨⟨1, 2⟩, ⟨Real.sin (Real.pi / 2), Real.cos (Real.pi / 2)⟩⟩).radianOffset = 1 ∧
    ((DebugDrawer.new (30 : ℝ)).PushTransform
        ⟨⟨1, 2⟩, ⟨Real.sin (Real.pi / 2), Real.cos (Real.pi / 2)⟩⟩).radianOffset
      ≠ Real.pi / 2 := by
  refine ⟨?_, ?_, ?_⟩
  · simp [PushTransform, DebugDrawer.new, vec3.create]; norm_num
  · simp [PushTransform]
  · simp only [PushTransform, Real.sin_pi_div_two]
    have := Real.pi_gt_three
    intro h
    linarith

/-- C5, as stated, fails: at 30 pixels per metre, after pushing the frame at
position `(1, 0)` with angle 0, drawing `(0,0)-(1,0)`, popping and drawing the
same segment again, the model matrix has translation entry 45, while on a
drawer whose frame was never set it is 15. -/
theorem pop_does_not_reset_frame :
    (stateOf (drawLine (⟨Real.sqrt, Real.sin, Real.cos, Real.pi⟩ : MathLib ℝ)
        (PopTransform
          (stateOf (drawLine (⟨Real.sqrt, Real.sin, Real.cos, Real.pi⟩ : MathLib ℝ)
            (PushTransform ((DebugDrawer.new 30).setProjViewMatrix mat4.identity)
              ⟨⟨1, 0⟩, ⟨0, 1⟩⟩) ⟨0, 0⟩ ⟨1, 0⟩))
          ⟨⟨1, 0⟩, ⟨0, 1⟩⟩) ⟨0, 0⟩ ⟨1, 0⟩)).modelMatrix ≠
    (stateOf (drawLine (⟨Real.sqrt, Real.sin, Real.cos, Real.pi⟩ : MathLib ℝ)
        ((DebugDrawer.new 30).setProjViewMatrix mat4.identity) ⟨0, 0⟩ ⟨1, 0⟩)).modelMatrix := by
  intro h
  have h12 := congrArg Mat4.e12 h
  simp only [stateOf_drawLine_modelMatrix] at h12
  rw [drawLineModel_eq, drawLineModel_eq] at h12
  simp only [PopTransform, stateOf_drawLine_pixelsPerMeter, stateOf_drawLine_xf,
    stateOf_drawLine_radianOffset, PushTransform, DebugDrawer.new, setProjViewMatrix,
    parentMatrix, mat4.scale, mat4.mul, mat4.translate, mat4.fromQuat, mat4.identity,
    quat.rotateZ, quat.identity, vec3.create, centerOf_eq_mean] at h12
  norm_num at h12

/-- C5, amended: `PopTransform` changes nothing, so after
`PushTransform(F); drawLine(A, B); PopTransform(F); drawLine(A, B)` on a fresh
drawer the model matrix is the one `drawLine(A, B)` builds under the parent
frame `F`; it is the matrix of a drawer whose frame was never set when the
pixel offset of `F` and the stored `F.q.s` are zero. -/
theorem pop_keeps_parent_frame (M : MathLib α) (pixelsPerMeter : α) (pv : Option (Mat4 α))
    (F : Transform α) (A B : Point α) :
    (stateOf (drawLine M
        (PopTransform
          (stateOf (drawLine M
            (PushTransform { DebugDrawer.new pixelsPerMeter with projViewMatrix := pv } F) A B))
          F) A B)).modelMatrix =
      (stateOf (drawLine M
        (PushTransform { DebugDrawer.new pixelsPerMeter with projViewMatrix := pv } F)
        A B)).modelMatrix ∧
    (F.p.x * pixelsPerMeter = 0 ∧ F.p.y * pixelsPerMeter = 0 ∧ F.q.s = 0 →
      (stateOf (drawLine M
        (PopTransform
          (stateOf (drawLine M
            (PushTransform { DebugDrawer.new pixelsPerMeter with projViewMatrix := pv } F) A B))
          F) A B)).modelMatrix =
      (stateOf (drawLine M { DebugDrawer.new pixelsPerMeter with projViewMatrix := pv }
        A B)).modelMatrix) := by
  have key : (stateOf (drawLine M
        (PopTransform
          (stateOf (drawLine M
            (PushTransform { DebugDrawer.new pixelsPerMeter with projViewMatrix := pv } F) A B))
          F) A B)).modelMatrix =
      (stateOf (drawLine M
        (PushTransform { DebugDrawer.new pixelsPerMeter with projViewMatrix := pv } F)
        A B)).modelMatrix := by
    rw [stateOf_drawLine_modelMatrix, stateOf_drawLine_modelMatrix]
    exact drawLineModel_modelMatrix_congr M (drawLine_frameEq M _ A B rfl) A B
  refine ⟨key, ?_⟩
  rintro ⟨hx, hy, hs⟩
  rw [key, stateOf_drawLine_modelMatrix, stateOf_drawLine_modelMatrix]
  refine drawLineModel_modelMatrix_congr M ?_ A B
  refine ⟨rfl, rfl, ?_, ?_, rfl, rfl, rfl⟩
  · simp [PushTransform, DebugDrawer.new, vec3.create, hx, hy]
  · simp [PushTransform, DebugDrawer.new, hs]

/-- Instance of the amended C5 for the frame at the origin with stored rotation 0, at 30 pixels per metre, for the segment `(0,0)-(1,0)`. -/
theorem pop_keeps_parent_frame_witness :
    (0 : ℝ) * 30 = 0 ∧ (0 : ℝ) * 30 = 0 ∧ (0 : ℝ) = 0 ∧
    (stateOf (drawLine (⟨Real.sqrt, Real.sin, Real.cos, Real.pi⟩ : MathLib ℝ)
        (PopTransform
          (stateOf (drawLine (⟨Real.sqrt, Real.sin, Real.cos, Real.pi⟩ : MathLib ℝ)
            (PushTransform { DebugDrawer.new 30 with projViewMatrix := none }
              ⟨⟨0, 0⟩, ⟨0, 1⟩⟩) ⟨0, 0⟩ ⟨1, 0⟩))
          ⟨⟨0, 0⟩, ⟨0, 1⟩⟩) ⟨0, 0⟩ ⟨1, 0⟩)).modelMatrix =
      (stateOf (drawLine (⟨Real.sqrt, Real.sin, Real.cos, Real.pi⟩ : MathLib ℝ)
        { DebugDrawer.new 30 with projViewMatrix := none } ⟨0, 0⟩ ⟨1, 0⟩)).modelMatrix :=
  ⟨by norm_num, by norm_num, rfl,
    (pop_keeps_parent_frame _ 30 none ⟨⟨0, 0⟩, ⟨0, 1⟩⟩ ⟨0, 0⟩ ⟨1, 0⟩).2
      ⟨by norm_num, by norm_num, rfl⟩⟩

/-- C8: on a reachable drawer with a projection-view matrix, for four
vertices `v0 .. v3` and a colour, `DrawSolidPolygon` returns and appends to
the call log one `gl.uniform3f` of the colour followed by exactly four
upload-and-draw pairs, for the edges `(v0,v1)`, `(v1,v2)`, `(v2,v3)`,
`(v3,v0)` in this order, each uploading the matrix that a `drawLine` call on
that edge made from the drawer as it was before the polygon uploads; the
`vertexCount` argument has no effect. -/
theorem DrawSolidPolygon_four_edges (M : MathLib α) (d : DebugDrawer α)
    (hd : Reachable M d) (pv : Mat4 α) (hpv : d.projViewMatrix = some pv)
    (v0 v1 v2 v3 : Point α) (vertexCount : Nat) (color : Color α) :
    (∃ e, DrawSolidPolygon M d [v0, v1, v2, v3] vertexCount color = Except.ok e ∧
      e.glLog = d.glLog ++
        [GLCall.uniform3f color.r color.g color.b,
         GLCall.uniformMatrix4fv (stateOf (drawLine M d v0 v1)).mvpMatrix,
         GLCall.drawArrays 0 4,
         GLCall.uniformMatrix4fv (stateOf (drawLine M d v1 v2)).mvpMatrix,
         GLCall.drawArrays 0 4,
         GLCall.uniformMatrix4fv (stateOf (drawLine M d v2 v3)).mvpMatrix,
         GLCall.drawArrays 0 4,
         GLCall.uniformMatrix4fv (stateOf (drawLine M d v3 v0)).mvpMatrix,
         GLCall.drawArrays 0 4]) ∧
    ∀ n : Nat, DrawSolidPolygon M d [v0, v1, v2, v3] n color =
      DrawSolidPolygon M d [v0, v1, v2, v3] vertexCount color := by
  refine ⟨?_, fun n => rfl⟩
  have hz : d.tempVec.z = 0 := (reachable_inv M d hd).1
  have h0 : FrameEq d { d with glLog := d.glLog ++ [GLCall.uniform3f color.r color.g color.b] } :=
    ⟨rfl, rfl, rfl, rfl, rfl, rfl, rfl⟩
  obtain ⟨e1, r1, f1, l1⟩ := drawLine_step M v0 v1 pv hpv hz h0
  obtain ⟨e2, r2, f2, l2⟩ := drawLine_step M v1 v2 pv hpv hz f1
  obtain ⟨e3, r3, f3, l3⟩ := drawLine_step M v2 v3 pv hpv hz f2
  obtain ⟨e4, r4, f4, l4⟩ := drawLine_step M v3 v0 pv hpv hz f3
  refine ⟨e4, ?_, ?_⟩
  · simp only [DrawSolidPolygon, drawLineAt, List.getElem?_cons_zero, List.getElem?_cons_succ,
      bind, Except.bind, pure, Except.pure, r1, r2, r3, r4]
  · rw [l4, l3, l2, l1]
    simp only [List.append_assoc, List.cons_append, List.nil_append]

/-- Instance of C8 for the unit square `(0,0), (1,0), (1,1), (0,1)` in red, on a fresh drawer with the identity as projection-view matrix. -/
theorem DrawSolidPolygon_four_edges_witness :
    (∃ e, DrawSolidPolygon (⟨Real.sqrt, Real.sin, Real.cos, Real.pi⟩ : MathLib ℝ)
        ((DebugDrawer.new 30).setProjViewMatrix mat4.identity)
        [⟨0, 0⟩, ⟨1, 0⟩, ⟨1, 1⟩, ⟨0, 1⟩] 4 ⟨1, 0, 0⟩ = Except.ok e ∧
      e.glLog = ((DebugDrawer.new (30 : ℝ)).setProjViewMatrix mat4.identity).glLog ++
        [GLCall.uniform3f 1 0 0,
         GLCall.uniformMatrix4fv
          (stateOf (drawLine (⟨Real.sqrt, Real.sin, Real.cos, Real.pi⟩ : MathLib ℝ)
            ((DebugDrawer.new 30).setProjViewMatrix mat4.identity) ⟨0, 0⟩ ⟨1, 0⟩)).mvpMatrix,
         GLCall.drawArrays 0 4,
         GLCall.uniformMatrix4fv
          (stateOf (drawLine (⟨Real.sqrt, Real.sin, Real.cos, Real.pi⟩ : MathLib ℝ)
            ((DebugDrawer.new 30).setProjViewMatrix mat4.identity) ⟨1, 0⟩ ⟨1, 1⟩)).mvpMatrix,
         GLCall.drawArrays 0 4,
         GLCall.uniformMatrix4fv
          (stateOf (drawLine (⟨Real.sqrt, Real.sin, Real.cos, Real.pi⟩ : MathLib ℝ)
            ((DebugDrawer.new 30).setProjViewMatrix mat4.identity) ⟨1, 1⟩ ⟨0, 1⟩)).mvpMatrix,
         GLCall.drawArrays 0 4,
         GLCall.uniformMatrix4fv
          (stateOf (drawLine (⟨Real.sqrt, Real.sin, Real.cos, Real.pi⟩ : MathLib ℝ)
            ((DebugDrawer.new 30).setProjViewMatrix mat4.identity) ⟨0, 1⟩ ⟨0, 0⟩)).mvpMatrix,
         GLCall.drawArrays 0 4]) :=
  (DrawSolidPolygon_four_edges _ _
    (Reachable.setProjView _ mat4.identity (Reachable.construct 30)) mat4.identity rfl
    ⟨0, 0⟩ ⟨1, 0⟩ ⟨1, 1⟩ ⟨0, 1⟩ 4 ⟨1, 0, 0⟩).1

/-- C10, as stated, fails once a product overflows: at 30 pixels per metre,
`drawLine((1e308, 0), (1e308, 0))` on a fresh drawer scales both X
coordinates to `Infinity`, their difference is `NaN`, and `vec3.normalize`
writes `0 * NaN = NaN` into the third entry of `tempVec`.  A later
`drawLine((0,0), (1,0))` then computes length `NaN`, while the same call on a
fresh drawer computes 30. -/
theorem overflow_leaves_nan_in_tempVec :
    (stateOf (IEEE.DebugDrawer.drawLine (Ext.mathLib (⟨Real.sqrt, Real.sin, Real.cos, Real.pi⟩ : MathLib ℝ)) (IEEE.DebugDrawer.new 30)
        ⟨Ext.fin (10 ^ 308), 0⟩ ⟨Ext.fin (10 ^ 308), 0⟩)).tempVec.z = Ext.nan ∧
    (stateOf (IEEE.DebugDrawer.drawLine (Ext.mathLib (⟨Real.sqrt, Real.sin, Real.cos, Real.pi⟩ : MathLib ℝ))
        (stateOf (IEEE.DebugDrawer.drawLine (Ext.mathLib (⟨Real.sqrt, Real.sin, Real.cos, Real.pi⟩ : MathLib ℝ)) (IEEE.DebugDrawer.new 30)
          ⟨Ext.fin (10 ^ 308), 0⟩ ⟨Ext.fin (10 ^ 308), 0⟩))
        ⟨0, 0⟩ ⟨1, 0⟩)).length = Ext.nan ∧
    (stateOf (IEEE.DebugDrawer.drawLine (Ext.mathLib (⟨Real.sqrt, Real.sin, Real.cos, Real.pi⟩ : MathLib ℝ)) (IEEE.DebugDrawer.new 30)
        ⟨0, 0⟩ ⟨1, 0⟩)).length = Ext.fin 30 := by
  have h30 : (30 : Ext ℝ) = Ext.fin 30 := by
    rw [Ext.ofNat_small 30 (by norm_num [Ext.maxValue])]
    norm_num
  have hz : (stateOf (IEEE.DebugDrawer.drawLine (Ext.mathLib (⟨Real.sqrt, Real.sin, Real.cos, Real.pi⟩ : MathLib ℝ)) (IEEE.DebugDrawer.new 30)
      ⟨Ext.fin (10 ^ 308), 0⟩ ⟨Ext.fin (10 ^ 308), 0⟩)).tempVec.z = Ext.nan := by
    rw [(ieee_drawLine_tempVec_length _ _ _ _).1]
    have hp : (IEEE.DebugDrawer.new (30 : Ext ℝ)).pixelsPerMeter = Ext.fin 30 := h30
    have hprod : (Ext.fin (10 ^ 308) : Ext ℝ) * Ext.fin 30 = Ext.posInf := by
      rw [Ext.fin_mul_fin]
      exact Ext.round_of_gt _ (by norm_num [Ext.maxValue])
    simp only [IEEE.vec3.normalize, hp, hprod, Ext.posInf_sub_posInf, Ext.nan_mul, Ext.nan_add]
    rw [if_neg (Ext.not_lt_nan _), Ext.mul_nan]
  refine ⟨hz, ?_, ?_⟩
  · rw [(ieee_drawLine_tempVec_length _ _ _ _).2.1, hz]
    simp only [IEEE.vec3.length, Ext.nan_mul, Ext.add_nan]
    rfl
  · rw [(ieee_drawLine_tempVec_length _ _ _ _).2.1]
    have hp : (IEEE.DebugDrawer.new (30 : Ext ℝ)).pixelsPerMeter = Ext.fin 30 := h30
    have hz0 : (IEEE.DebugDrawer.new (30 : Ext ℝ)).tempVec.z = Ext.fin 0 := by
      show (0 : Ext ℝ) = Ext.fin 0
      rw [Ext.ofNat_small 0 (by norm_num [Ext.maxValue])]
      norm_num
    have h0 : (0 : Ext ℝ) = Ext.fin 0 := by
      rw [Ext.ofNat_small 0 (by norm_num [Ext.maxValue])]
      norm_num
    have h1 : (1 : Ext ℝ) = Ext.fin 1 := by
      rw [Ext.ofNat_small 1 (by norm_num [Ext.maxValue])]
      norm_num
    have e1 : (Ext.fin 1 : Ext ℝ) * Ext.fin 30 = Ext.fin 30 :=
      Ext.round_eq _ _ (by norm_num) (by norm_num [Ext.maxValue])
    have e2 : (Ext.fin 0 : Ext ℝ) * Ext.fin 30 = Ext.fin 0 :=
      Ext.round_eq _ _ (by norm_num) (by norm_num [Ext.maxValue])
    have e3 : (Ext.fin 30 : Ext ℝ) - Ext.fin 0 = Ext.fin 30 :=
      Ext.round_eq _ _ (by norm_num) (by norm_num [Ext.maxValue])
    have e4 : (Ext.fin 0 : Ext ℝ) - Ext.fin 0 = Ext.fin 0 :=
      Ext.round_eq _ _ (by norm_num) (by norm_num [Ext.maxValue])
    have e5 : (Ext.fin 30 : Ext ℝ) * Ext.fin 30 = Ext.fin 900 :=
      Ext.round_eq _ _ (by norm_num) (by norm_num [Ext.maxValue])
    have e6 : (Ext.fin 0 : Ext ℝ) * Ext.fin 0 = Ext.fin 0 :=
      Ext.round_eq _ _ (by norm_num) (by norm_num [Ext.maxValue])
    have e7 : (Ext.fin 900 : Ext ℝ) + Ext.fin 0 = Ext.fin 900 :=
      Ext.round_eq _ _ (by norm_num) (by norm_num [Ext.maxValue])
    have e8 : (Ext.mathLib (⟨Real.sqrt, Real.sin, Real.cos, Real.pi⟩ : MathLib ℝ)).sqrt (Ext.fin 900) = Ext.fin 30 := by
      show (if (900 : ℝ) < 0 then Ext.nan else Ext.round (Real.sqrt 900)) = Ext.fin 30
      rw [if_neg (by norm_num)]
      refine Ext.round_eq _ _ ?_ (by norm_num [Ext.maxValue])
      rw [show (900 : ℝ) = 30 * 30 by norm_num]
      exact Real.sqrt_mul_self (by norm_num)
    simp only [IEEE.vec3.length, hp, hz0, h0, h1, e1, e2, e3, e4, e5, e6, e7, e8]

/-- C10, amended: as long as every value stays finite (numbers taken as exact
elements of an ordered field, so that no product or difference overflows and
no infinity or NaN arises), in every reachable drawer state the third entries
of `tempVec` and `xf` are zero; `drawLine` leaves `xf`, `radianOffset`,
`pixelsPerMeter`, `lineWidth` and `projViewMatrix` as they were; and any two
reachable states that agree on these five produce, for the same two points,
the same `modelMatrix` and the same `mvpMatrix`. -/
theorem scratch_reuse_leaks_no_history (M : MathLib α) (d : DebugDrawer α)
    (hd : Reachable M d) :
    d.tempVec.z = 0 ∧ d.xf.z = 0 ∧
    (∀ A B : Point α,
      (stateOf (drawLine M d A B)).xf = d.xf ∧
      (stateOf (drawLine M d A B)).radianOffset = d.radianOffset ∧
      (stateOf (drawLine M d A B)).pixelsPerMeter = d.pixelsPerMeter ∧
      (stateOf (drawLine M d A B)).lineWidth = d.lineWidth ∧
      (stateOf (drawLine M d A B)).projViewMatrix = d.projViewMatrix) ∧
    (∀ e : DebugDrawer α, Reachable M e →
      e.pixelsPerMeter = d.pixelsPerMeter → e.lineWidth = d.lineWidth → e.xf = d.xf →
      e.radianOffset = d.radianOffset → e.projViewMatrix = d.projViewMatrix →
      ∀ A B : Point α,
        (stateOf (drawLine M e A B)).modelMatrix = (stateOf (drawLine M d A B)).modelMatrix ∧
        (stateOf (drawLine M e A B)).mvpMatrix = (stateOf (drawLine M d A B)).mvpMatrix) := by
  obtain ⟨hz, hxz, hu, hm⟩ := reachable_inv M d hd
  refine ⟨hz, hxz, fun A B => ⟨stateOf_drawLine_xf M d A B,
    stateOf_drawLine_radianOffset M d A B, stateOf_drawLine_pixelsPerMeter M d A B,
    stateOf_drawLine_lineWidth M d A B, stateOf_drawLine_projViewMatrix M d A B⟩, ?_⟩
  intro e he h1 h2 h3 h4 h5 A B
  obtain ⟨ez, _, eu, em⟩ := reachable_inv M e he
  have hf : FrameEq d e := ⟨h1, h2, h3, h4, eu.trans hu.symm, h5, ez.trans hz.symm⟩
  have hmod := drawLineModel_modelMatrix_congr M hf A B
  refine ⟨by rw [stateOf_drawLine_modelMatrix, stateOf_drawLine_modelMatrix, hmod], ?_⟩
  cases hp : d.projViewMatrix with
  | none =>
    have hpe : e.projViewMatrix = none := h5.trans hp
    rw [drawLine_of_none M d A B hp, drawLine_of_none M e A B hpe]
    simp only [stateOf]
    rw [drawLineModel_eq, drawLineModel_eq]
    exact (em hpe).trans (hm hp).symm
  | some pv =>
    have hpe : e.projViewMatrix = some pv := h5.trans hp
    rw [stateOf_drawLine_mvpMatrix M d A B pv hp, stateOf_drawLine_mvpMatrix M e A B pv hpe,
      hmod]

/-- Instance of the amended C10 for the state reached by the constructor, one `PushTransform` and one `drawLine` (which throws, no projection-view matrix being set). -/
theorem scratch_reuse_leaks_no_history_witness :
    (stateOf (drawLine (⟨Real.sqrt, Real.sin, Real.cos, Real.pi⟩ : MathLib ℝ)
      ((DebugDrawer.new 30).PushTransform ⟨⟨1, 2⟩, ⟨0, 1⟩⟩) ⟨0, 0⟩ ⟨3, 4⟩)).tempVec.z = 0 ∧
    (stateOf (drawLine (⟨Real.sqrt, Real.sin, Real.cos, Real.pi⟩ : MathLib ℝ)
      ((DebugDrawer.new 30).PushTransform ⟨⟨1, 2⟩, ⟨0, 1⟩⟩) ⟨0, 0⟩ ⟨3, 4⟩)).xf.z = 0 :=
  ⟨(scratch_reuse_leaks_no_history _ _
      (Reachable.line _ ⟨0, 0⟩ ⟨3, 4⟩
        (Reachable.push _ ⟨⟨1, 2⟩, ⟨0, 1⟩⟩ (Reachable.construct 30)))).1,
   (scratch_reuse_leaks_no_history _ _
      (Reachable.line _ ⟨0, 0⟩ ⟨3, 4⟩
        (Reachable.push _ ⟨⟨1, 2⟩, ⟨0, 1⟩⟩ (Reachable.construct 30)))).2.1⟩

/-- C6: with exact `Math` functions, for every drawer state and every pair
of points the model matrix `drawLine` builds is the product
`T(xf) * Rz(radianOffset) * T(centerX, centerY, 0) * R(rotation) *
S(length, lineWidth, 1)` in this order; and when a projection-view matrix is
set, the matrix put in `mvpMatrix` and uploaded is `projViewMatrix *
modelMatrix`. -/
theorem drawLine_model_is_product (M : MathLib α) (hM : M.Exact) (d : DebugDrawer α)
    (A B : Point α) :
    toMatrix (stateOf (drawLine M d A B)).modelMatrix =
      Spec.T d.xf * Spec.Rz M d.radianOffset *
        Spec.T ⟨(stateOf (drawLine M d A B)).centerX, (stateOf (drawLine M d A B)).centerY, 0⟩ *
        Spec.R (stateOf (drawLine M d A B)).rotation *
        Spec.S ⟨(stateOf (drawLine M d A B)).length, d.lineWidth, 1⟩ ∧
    ∀ pv : Mat4 α, d.projViewMatrix = some pv →
      toMatrix (stateOf (drawLine M d A B)).mvpMatrix =
        toMatrix pv * toMatrix (stateOf (drawLine M d A B)).modelMatrix ∧
      (stateOf (drawLine M d A B)).glLog = d.glLog ++
        [GLCall.uniformMatrix4fv (stateOf (drawLine M d A B)).mvpMatrix,
         GLCall.drawArrays 0 4] := by
  constructor
  · rw [stateOf_drawLine_centerX, stateOf_drawLine_centerY, stateOf_drawLine_rotation,
      stateOf_drawLine_length, stateOf_drawLine_modelMatrix, drawLineModel_eq]
    simp only []
    rw [toMatrix_scale, toMatrix_mul, toMatrix_translate, toMatrix_fromQuat,
      toMatrix_parentMatrix M hM]
  · intro pv hpv
    refine ⟨?_, stateOf_drawLine_glLog M d A B pv hpv⟩
    rw [stateOf_drawLine_mvpMatrix M d A B pv hpv, stateOf_drawLine_modelMatrix, toMatrix_mul]

/-- Instance of C6 with the real `Math` functions, for the segment `(0,0)-(1,0)` at 30 pixels per metre. -/
theorem drawLine_model_is_product_witness :
    toMatrix (stateOf (drawLine (⟨Real.sqrt, Real.sin, Real.cos, Real.pi⟩ : MathLib ℝ)
        ((DebugDrawer.new 30).setProjViewMatrix mat4.identity) ⟨0, 0⟩ ⟨1, 0⟩)).mvpMatrix =
      toMatrix mat4.identity *
        toMatrix (stateOf (drawLine (⟨Real.sqrt, Real.sin, Real.cos, Real.pi⟩ : MathLib ℝ)
          ((DebugDrawer.new 30).setProjViewMatrix mat4.identity) ⟨0, 0⟩ ⟨1, 0⟩)).modelMatrix :=
  ((drawLine_model_is_product _ real_exact
    ((DebugDrawer.new 30).setProjViewMatrix mat4.identity) ⟨0, 0⟩ ⟨1, 0⟩).2
      mat4.identity rfl).1

/-- C7: with exact `Math` functions, on a reachable drawer the length
`drawLine` computes is `sqrt((B.x - A.x)^2 + (B.y - A.y)^2) * |pixelsPerMeter|`
(the third entry of the scratch vector contributes nothing), it is the X
component of the scale `(length, lineWidth, 1)`, and `drawLine(B, A)` computes
the same length. -/
theorem drawLine_length_is_distance (M : MathLib α) (hM : M.Exact) (d : DebugDrawer α)
    (hd : Reachable M d) (A B : Point α) :
    (stateOf (drawLine M d A B)).length =
      M.sqrt ((B.x - A.x) * (B.x - A.x) + (B.y - A.y) * (B.y - A.y)) * |d.pixelsPerMeter| ∧
    (stateOf (drawLine M d A B)).scale =
      ⟨M.sqrt ((B.x - A.x) * (B.x - A.x) + (B.y - A.y) * (B.y - A.y)) * |d.pixelsPerMeter|,
       d.lineWidth, 1⟩ ∧
    (stateOf (drawLine M d B A)).length = (stateOf (drawLine M d A B)).length := by
  have hz : d.tempVec.z = 0 := (reachable_inv M d hd).1
  rw [stateOf_drawLine_length, stateOf_drawLine_length, stateOf_drawLine_scale,
    length_direction M hM d A B hz, length_direction M hM d B A hz]
  refine ⟨rfl, rfl, ?_⟩
  congr 2
  ring

/-- Instance of C7 with the real `Math` functions: at 30 pixels per metre the segment `(0,0)-(1,0)` has length 30 and scale `(30, 4, 1)`. -/
theorem drawLine_length_is_distance_witness :
    (stateOf (drawLine (⟨Real.sqrt, Real.sin, Real.cos, Real.pi⟩ : MathLib ℝ) (DebugDrawer.new 30) ⟨0, 0⟩ ⟨1, 0⟩)).length = 30 ∧
    (stateOf (drawLine (⟨Real.sqrt, Real.sin, Real.cos, Real.pi⟩ : MathLib ℝ) (DebugDrawer.new 30) ⟨0, 0⟩ ⟨1, 0⟩)).scale = ⟨30, 4, 1⟩ := by
  have h := drawLine_length_is_distance (⟨Real.sqrt, Real.sin, Real.cos, Real.pi⟩ : MathLib ℝ) real_exact (DebugDrawer.new 30)
    (Reachable.construct 30) ⟨0, 0⟩ ⟨1, 0⟩
  have e : Real.sqrt (((1 : ℝ) - 0) * (1 - 0) + ((0 : ℝ) - 0) * (0 - 0)) * |(30 : ℝ)| = 30 := by
    norm_num
  refine ⟨h.1.trans ?_, h.2.1.trans ?_⟩
  · exact e
  · exact congrArg (fun t : ℝ => (⟨t, 4, 1⟩ : Vec3 ℝ)) e

/-- C9: with exact `Math` functions, on a reachable drawer (any parent
frame), `drawLine(A, B)` and `drawLine(B, A)` have the same footprint: the
images of the four unit-quad corners under the two model matrices are the same
points; and when the pixel-scaled endpoints differ, the second quad is the
first turned by half a turn about the common centre. -/
theorem drawLine_swap_same_footprint (M : MathLib α) (hM : M.Exact) (d : DebugDrawer α)
    (hd : Reachable M d) (A B : Point α) :
    (∀ p : Vec3 α, p ∈ footprint (stateOf (drawLine M d A B)).modelMatrix ↔
      p ∈ footprint (stateOf (drawLine M d B A)).modelMatrix) ∧
    (B.x * d.pixelsPerMeter ≠ A.x * d.pixelsPerMeter ∨
      B.y * d.pixelsPerMeter ≠ A.y * d.pixelsPerMeter →
      ∀ x y : α,
        transformPoint (stateOf (drawLine M d B A)).modelMatrix ⟨x, y, 0⟩ =
          transformPoint (stateOf (drawLine M d A B)).modelMatrix ⟨-x, -y, 0⟩) := by
  obtain ⟨hz, _, hu, _⟩ := reachable_inv M d hd
  obtain ⟨sx, sy, sz⟩ := direction_swap d A B
  have turn : (direction d A B).x ≠ 0 ∨ (direction d A B).y ≠ 0 → ∀ x y : α,
      transformPoint (stateOf (drawLine M d B A)).modelMatrix ⟨x, y, 0⟩ =
        transformPoint (stateOf (drawLine M d A B)).modelMatrix ⟨-x, -y, 0⟩ := by
    intro hv x y
    obtain ⟨c, s, h1, h2⟩ := segment_rotation_swap M hM d A B hz hv
    obtain ⟨hl, _, _, _⟩ := normalize_neg M (direction d A B) (direction d B A) sx sy hz
      (sz.trans hz)
    rw [modelMatrix_formula M d A B hu, modelMatrix_formula M d B A hu, h1, h2, hl,
      transformPoint_model, transformPoint_model]
    congr 2 <;> ring
  constructor
  · intro p
    by_cases hv : (direction d A B).x ≠ 0 ∨ (direction d A B).y ≠ 0
    · exact footprint_half_turn _ _ (turn hv) p
    · have hx0 : (direction d A B).x = 0 := by
        by_contra h; exact hv (Or.inl h)
      have hy0 : (direction d A B).y = 0 := by
        by_contra h; exact hv (Or.inr h)
      have hsame : direction d B A = direction d A B := by
        have e1 : (direction d B A).x = (direction d A B).x := by rw [sx, hx0, neg_zero]
        have e2 : (direction d B A).y = (direction d A B).y := by rw [sy, hy0, neg_zero]
        cases hAB : direction d A B with
        | mk a b c =>
          cases hBA : direction d B A with
          | mk a2 b2 c2 =>
            rw [hAB, hBA] at e1 e2 sz
            simp only at e1 e2 sz
            rw [e1, e2, sz]
      have hm : (stateOf (drawLine M d B A)).modelMatrix =
          (stateOf (drawLine M d A B)).modelMatrix := by
        rw [modelMatrix_formula M d A B hu, modelMatrix_formula M d B A hu, hsame,
          add_comm (B.x * d.pixelsPerMeter), add_comm (B.y * d.pixelsPerMeter)]
      rw [hm]
  · intro hne
    apply turn
    rcases hne with h | h
    · left
      show B.x * d.pixelsPerMeter - A.x * d.pixelsPerMeter ≠ 0
      exact sub_ne_zero.mpr h
    · right
      show B.y * d.pixelsPerMeter - A.y * d.pixelsPerMeter ≠ 0
      exact sub_ne_zero.mpr h

/-- Instance of C9 with the real `Math` functions under a pushed frame: the corner `(0.5, 0.5)` of the quad for `(1,0)-(0,0)` is the corner `(-0.5, -0.5)` of the quad for `(0,0)-(1,0)`. -/
theorem drawLine_swap_same_footprint_witness :
    transformPoint (stateOf (drawLine (⟨Real.sqrt, Real.sin, Real.cos, Real.pi⟩ : MathLib ℝ)
        ((DebugDrawer.new 30).PushTransform ⟨⟨1, 2⟩, ⟨0, 1⟩⟩)
        ⟨1, 0⟩ ⟨0, 0⟩)).modelMatrix ⟨1 / 2, 1 / 2, 0⟩ =
      transformPoint (stateOf (drawLine (⟨Real.sqrt, Real.sin, Real.cos, Real.pi⟩ : MathLib ℝ)
        ((DebugDrawer.new 30).PushTransform ⟨⟨1, 2⟩, ⟨0, 1⟩⟩)
        ⟨0, 0⟩ ⟨1, 0⟩)).modelMatrix ⟨-(1 / 2), -(1 / 2), 0⟩ :=
  (drawLine_swap_same_footprint _ real_exact _
    (Reachable.push _ ⟨⟨1, 2⟩, ⟨0, 1⟩⟩ (Reachable.construct 30)) ⟨0, 0⟩ ⟨1, 0⟩).2
    (Or.inl (by
      show (1 : ℝ) * 30 ≠ 0 * 30
      norm_num)) (1 / 2) (1 / 2)

/-- C2, as stated, fails: on a fresh drawer at 1 pixel per metre, for
`A = (0, 0)` and `B = (99999999, 20000)` (length 100000001) the normalised
direction has X component above `0.999999`, `quat.rotationTo` returns the
identity, and the model matrix sends `(0.5, 0, 0)` to a point whose Y
coordinate is 10000, not to `B`. -/
theorem drawLine_near_axis_misses_endpoint :
    (transformPoint (stateOf (drawLine (⟨Real.sqrt, Real.sin, Real.cos, Real.pi⟩ : MathLib ℝ) (DebugDrawer.new 1)
        ⟨0, 0⟩ ⟨99999999, 20000⟩)).modelMatrix ⟨1 / 2, 0, 0⟩).y = 10000 ∧
    transformPoint (stateOf (drawLine (⟨Real.sqrt, Real.sin, Real.cos, Real.pi⟩ : MathLib ℝ) (DebugDrawer.new 1)
        ⟨0, 0⟩ ⟨99999999, 20000⟩)).modelMatrix ⟨1 / 2, 0, 0⟩ ≠ ⟨99999999 * 1, 20000 * 1, 0⟩ := by
  have hx : (direction (DebugDrawer.new (1 : ℝ)) ⟨0, 0⟩ ⟨99999999, 20000⟩).x = 99999999 := by
    simp [direction, DebugDrawer.new]
  have hy : (direction (DebugDrawer.new (1 : ℝ)) ⟨0, 0⟩ ⟨99999999, 20000⟩).y = 20000 := by
    simp [direction, DebugDrawer.new]
  have hz : (direction (DebugDrawer.new (1 : ℝ)) ⟨0, 0⟩ ⟨99999999, 20000⟩).z = 0 := rfl
  have hl : vec3.length (⟨Real.sqrt, Real.sin, Real.cos, Real.pi⟩ : MathLib ℝ) (direction (DebugDrawer.new (1 : ℝ)) ⟨0, 0⟩ ⟨99999999, 20000⟩) =
      100000001 := by
    unfold vec3.length
    rw [hx, hy, hz]
    exact sqrt_unique _ real_exact (by norm_num) (by norm_num)
  obtain ⟨_, nz, nx, _, nu⟩ := normalize_facts (⟨Real.sqrt, Real.sin, Real.cos, Real.pi⟩ : MathLib ℝ) real_exact
    (direction (DebugDrawer.new (1 : ℝ)) ⟨0, 0⟩ ⟨99999999, 20000⟩) hz (Or.inl (by rw [hx]; norm_num))
  rw [hl, hx] at nx
  have hbig : (vec3.normalize (⟨Real.sqrt, Real.sin, Real.cos, Real.pi⟩ : MathLib ℝ)
      (direction (DebugDrawer.new (1 : ℝ)) ⟨0, 0⟩ ⟨99999999, 20000⟩)).x > 999999 / 1000000 := by
    have e : (vec3.normalize (⟨Real.sqrt, Real.sin, Real.cos, Real.pi⟩ : MathLib ℝ)
        (direction (DebugDrawer.new (1 : ℝ)) ⟨0, 0⟩ ⟨99999999, 20000⟩)).x = 99999999 / 100000001 :=
      eq_div_of_mul_eq (by norm_num) nx
    rw [e]; norm_num
  have hrot := fromQuat_rotationTo_unit (⟨Real.sqrt, Real.sin, Real.cos, Real.pi⟩ : MathLib ℝ) real_exact _ nz nu
  rw [if_neg (by intro h; linarith), if_pos hbig] at hrot
  have hval : (transformPoint (stateOf (drawLine (⟨Real.sqrt, Real.sin, Real.cos, Real.pi⟩ : MathLib ℝ) (DebugDrawer.new 1)
      ⟨0, 0⟩ ⟨99999999, 20000⟩)).modelMatrix ⟨1 / 2, 0, 0⟩).y = 10000 := by
    rw [modelMatrix_formula _ _ _ _ rfl, hrot, transformPoint_model,
      parentMatrix_identity _ real_exact _ rfl rfl, transformPoint_identity]
    simp only [DebugDrawer.new]
    norm_num
  refine ⟨hval, ?_⟩
  intro h
  rw [h] at hval
  norm_num at hval

/-- C2, amended: with exact `Math` functions, on a reachable drawer whose
parent frame is the identity, if the pixel direction of the segment lies on
the X axis or its X component is at most `0.999999` of its length in absolute
value, then the model matrix sends `(-0.5, 0, 0)` to the pixel-scaled `A` and
`(0.5, 0, 0)` to the pixel-scaled `B`, and, when the scaled endpoints differ,
the segment rotation sends `(1, 0, 0)` onto the direction divided by its
length. -/
theorem drawLine_maps_mid_edges (M : MathLib α) (hM : M.Exact) (d : DebugDrawer α)
    (hd : Reachable M d) (hxf : d.xf = ⟨0, 0, 0⟩) (hrad : d.radianOffset = 0) (A B : Point α)
    (h : (direction d A B).y = 0 ∨
      |(direction d A B).x| ≤ 999999 / 1000000 * vec3.length M (direction d A B)) :
    transformPoint (stateOf (drawLine M d A B)).modelMatrix ⟨-(1 / 2), 0, 0⟩ =
      ⟨A.x * d.pixelsPerMeter, A.y * d.pixelsPerMeter, 0⟩ ∧
    transformPoint (stateOf (drawLine M d A B)).modelMatrix ⟨1 / 2, 0, 0⟩ =
      ⟨B.x * d.pixelsPerMeter, B.y * d.pixelsPerMeter, 0⟩ ∧
    ((direction d A B).x ≠ 0 ∨ (direction d A B).y ≠ 0 →
      transformPoint (mat4.fromQuat (stateOf (drawLine M d A B)).rotation) ⟨1, 0, 0⟩ =
        ⟨(direction d A B).x / vec3.length M (direction d A B),
         (direction d A B).y / vec3.length M (direction d A B), 0⟩) := by
  obtain ⟨hz, _, hu, _⟩ := reachable_inv M d hd
  have hvz : (direction d A B).z = 0 := hz
  have hdx : (direction d A B).x = B.x * d.pixelsPerMeter - A.x * d.pixelsPerMeter := rfl
  have hdy : (direction d A B).y = B.y * d.pixelsPerMeter - A.y * d.pixelsPerMeter := rfl
  rw [modelMatrix_formula M d A B hu, stateOf_drawLine_rotation, hu,
    parentMatrix_identity M hM d hxf hrad]
  by_cases hv : (direction d A B).x ≠ 0 ∨ (direction d A B).y ≠ 0
  · obtain ⟨lpos, nz, nx, ny, nu⟩ := normalize_facts M hM (direction d A B) hvz hv
    have hmid : (vec3.normalize M (direction d A B)).y = 0 ∨
        (-(999999 / 1000000) ≤ (vec3.normalize M (direction d A B)).x ∧
          (vec3.normalize M (direction d A B)).x ≤ 999999 / 1000000) := by
      rcases h with h | h
      · left
        rw [h] at ny
        rcases mul_eq_zero.mp ny with e | e
        · exact e
        · exact absurd e lpos.ne'
      · right
        rw [← nx, abs_mul, abs_of_pos lpos] at h
        have h2 := le_of_mul_le_mul_right h lpos
        exact abs_le.mp h2
    rw [segment_rotation_exact M hM _ nz nu hmid, transformPoint_model, transformPoint_model,
      transformPoint_identity, transformPoint_identity]
    have ex : (vec3.normalize M (direction d A B)).x =
        (direction d A B).x / vec3.length M (direction d A B) :=
      eq_div_of_mul_eq lpos.ne' nx
    have ey : (vec3.normalize M (direction d A B)).y =
        (direction d A B).y / vec3.length M (direction d A B) :=
      eq_div_of_mul_eq lpos.ne' ny
    refine ⟨?_, ?_, fun _ => ?_⟩
    · simp only [Vec3.mk.injEq]
      refine ⟨?_, ?_, trivial⟩
      · linear_combination (-(1 : α) / 2) * nx - (1 / 2) * hdx
      · linear_combination (-(1 : α) / 2) * ny - (1 / 2) * hdy
    · simp only [Vec3.mk.injEq]
      refine ⟨?_, ?_, trivial⟩
      · linear_combination ((1 : α) / 2) * nx + (1 / 2) * hdx
      · linear_combination ((1 : α) / 2) * ny + (1 / 2) * hdy
    · rw [← ex, ← ey]
      simp [transformPoint, planarRotation]
  · have hx0 : (direction d A B).x = 0 := by
      by_contra e; exact hv (Or.inl e)
    have hy0 : (direction d A B).y = 0 := by
      by_contra e; exact hv (Or.inr e)
    obtain ⟨hn, hl⟩ := normalize_zero M hM (direction d A B) hx0 hy0 hvz
    rw [hn, hl, fromQuat_rotationTo_zero M hM, transformPoint_model, transformPoint_model,
      transformPoint_identity, transformPoint_identity]
    rw [hdx] at hx0
    rw [hdy] at hy0
    refine ⟨?_, ?_, fun e => absurd e hv⟩
    · simp only [Vec3.mk.injEq]
      refine ⟨?_, ?_, trivial⟩
      · linear_combination ((1 : α) / 2) * hx0
      · linear_combination ((1 : α) / 2) * hy0
    · simp only [Vec3.mk.injEq]
      refine ⟨?_, ?_, trivial⟩
      · linear_combination (-(1 : α) / 2) * hx0
      · linear_combination (-(1 : α) / 2) * hy0

/-- Instance of the amended C2 with the real `Math` functions: at 30 pixels per metre, for `A = (0,0)` and `B = (0,1)`, the mid-edge points go to `(0,0)` and `(0,30)` and the segment rotation takes `+X` to `+Y`. -/
theorem drawLine_maps_mid_edges_witness :
    transformPoint (stateOf (drawLine (⟨Real.sqrt, Real.sin, Real.cos, Real.pi⟩ : MathLib ℝ) (DebugDrawer.new 30)
        ⟨0, 0⟩ ⟨0, 1⟩)).modelMatrix ⟨-(1 / 2), 0, 0⟩ = ⟨0 * 30, 0 * 30, 0⟩ ∧
    transformPoint (stateOf (drawLine (⟨Real.sqrt, Real.sin, Real.cos, Real.pi⟩ : MathLib ℝ) (DebugDrawer.new 30)
        ⟨0, 0⟩ ⟨0, 1⟩)).modelMatrix ⟨1 / 2, 0, 0⟩ = ⟨0 * 30, 1 * 30, 0⟩ ∧
    transformPoint (mat4.fromQuat (stateOf (drawLine (⟨Real.sqrt, Real.sin, Real.cos, Real.pi⟩ : MathLib ℝ) (DebugDrawer.new 30)
        ⟨0, 0⟩ ⟨0, 1⟩)).rotation) ⟨1, 0, 0⟩ = ⟨0, 1, 0⟩ := by
  have hx : (direction (DebugDrawer.new (30 : ℝ)) ⟨0, 0⟩ ⟨0, 1⟩).x = 0 := by
    simp [direction]
  have hy : (direction (DebugDrawer.new (30 : ℝ)) ⟨0, 0⟩ ⟨0, 1⟩).y = 30 := by
    simp [direction, DebugDrawer.new]
  have hz : (direction (DebugDrawer.new (30 : ℝ)) ⟨0, 0⟩ ⟨0, 1⟩).z = 0 := rfl
  have hl : vec3.length (⟨Real.sqrt, Real.sin, Real.cos, Real.pi⟩ : MathLib ℝ) (direction (DebugDrawer.new (30 : ℝ)) ⟨0, 0⟩ ⟨0, 1⟩) = 30 := by
    unfold vec3.length
    rw [hx, hy, hz]
    exact sqrt_unique _ real_exact (by norm_num) (by norm_num)
  have key := drawLine_maps_mid_edges (⟨Real.sqrt, Real.sin, Real.cos, Real.pi⟩ : MathLib ℝ) real_exact (DebugDrawer.new 30)
    (Reachable.construct 30) rfl rfl ⟨0, 0⟩ ⟨0, 1⟩
    (Or.inr (by rw [hx, hl]; norm_num))
  refine ⟨key.1, key.2.1, ?_⟩
  have h3 := key.2.2 (Or.inr (by rw [hy]; norm_num))
  rw [hx, hy, hl] at h3
  rw [h3]
  norm_num

end Claims

end DebugDraw
